import Mathlib

/-!
Shallow embedding of the auth-system repository core: the token lifecycle
manager and identity reconciliation engine of `AuthService`
(src/unnamed/part_002), the JWT utilities (`src/src/routes/auth.ts`
concatenation, `utils/jwt.ts` part), the crypto utilities (`utils/crypto.ts`
part), and the Drizzle schema (`src/src/utils/logger.ts` concatenation,
`db/schema.ts` part).

Modelling conventions:
- The PostgreSQL store is a `Store` record of lists; `select ... limit 1`
  becomes `List.find?`, `update ... where` becomes `List.map` guarded by the
  where-condition, `insert` appends.  Row UUIDs are modelled by a `nextId`
  counter.
- Timestamps are `Nat` milliseconds; `Date.now()` is an explicit `now`
  argument.
- `jsonwebtoken` signing is modelled symbolically: a `Jwt` structure carries
  the payload, issuer, audience, expiry and, as the signature, the signing
  secret (an HMAC is determined by exactly these inputs).
- SHA-256 (`hashToken` in utils/crypto.ts) is modelled as an injective
  one-way tag `Digest`; the only property the code relies on is that it is
  deterministic and collision-free.
- `crypto.randomBytes` entropy is threaded as explicit `fresh` string
  arguments to the operations that generate opaque one-time tokens.
- Audit-log writes on failure paths and outbound e-mail are best-effort side
  channels (spec section 7) and are omitted; success-path audit appends are
  kept.
-/

namespace AuthSystem

/-- Account status enum (`user_status` in db/schema.ts). -/
inductive UserStatus where
  | active
  | suspended
  | deleted
deriving DecidableEq

/-- Token kind carried in a JWT payload (`type` field of `JwtPayload`). -/
inductive TokenKind where
  | access
  | refresh
deriving DecidableEq

/-- One-time token type tag (`token_type` enum in db/schema.ts). -/
inductive OneTimeKind where
  | emailVerification
  | passwordReset
deriving DecidableEq

/-- `JwtPayload` from utils/jwt.ts. -/
structure JwtPayload where
  userId : Nat
  email : String
  kind : TokenKind
deriving DecidableEq

/-- A signed JWT as produced by `jwt.sign`: payload plus registered claims;
the signature field holds the signing secret (symbolic HMAC). -/
structure Jwt where
  payload : JwtPayload
  iss : String
  aud : String
  exp : Nat
  sig : String
deriving DecidableEq

/-- A raw token string as presented by a client: either the encoding of a
signed JWT or any other string. -/
inductive RawToken where
  | jwt (j : Jwt)
  | other (s : String)
deriving DecidableEq

/-- SHA-256 digest (`hashToken` in utils/crypto.ts), modelled as an injective
one-way tag: deterministic and collision-free, never unwrapped by any
operation. -/
structure Digest where
  val : RawToken
deriving DecidableEq

/-- `hashToken` from utils/crypto.ts: deterministic one-way digest. -/
def hashToken (t : RawToken) : Digest := ⟨t⟩

/-- Modelled from the spec: src lacks `utils/password.ts` (only its tests are
present).  The spec (section 4.1) describes a slow salted adaptive hash with a
fresh salt per call; modelled symbolically as the pair of plaintext and salt. -/
structure PwHash where
  plaintext : String
  salt : Nat
deriving DecidableEq

/-- Modelled from the spec: `hashPassword(plaintext) -> hash` with a fresh
salt per call; the salt is threaded as an explicit argument. -/
def hashPassword (pw : String) (salt : Nat) : PwHash := ⟨pw, salt⟩

/-- Modelled from the spec: `verifyPassword(plaintext, hash) -> bool`. -/
def verifyPassword (pw : String) (h : PwHash) : Bool := pw == h.plaintext

/-- Modelled from the spec (section 4.4) and the messages asserted in
__tests__/utils/password.test.ts: at least 8 chars, one uppercase, one
lowercase, one digit, one special character, each violation reported
individually. -/
def validatePasswordStrength (pw : String) : Bool × List String :=
  let errs : List String :=
    (if pw.length < 8 then ["Password must be at least 8 characters long"] else []) ++
    (if pw.data.any Char.isUpper then [] else
      ["Password must contain at least one uppercase letter"]) ++
    (if pw.data.any Char.isLower then [] else
      ["Password must contain at least one lowercase letter"]) ++
    (if pw.data.any Char.isDigit then [] else
      ["Password must contain at least one number"]) ++
    (if pw.data.any (fun c => !c.isAlphanum) then [] else
      ["Password must contain at least one special character"])
  (errs.isEmpty, errs)

/-- Error taxonomy from src/unnamed/part_002 (types/index.ts part).
`appError` models a bare `Error` throw. -/
inductive AuthError where
  | validationError (msg : String)
  | unauthorizedError (msg : String)
  | conflictError (msg : String)
  | notFoundError (msg : String)
  | appError (msg : String)
deriving DecidableEq

/-- `users` table row (db/schema.ts); fields not touched by the modelled
operations (phoneNumber, createdAt, updatedAt) are omitted. -/
structure User where
  id : Nat
  email : Option String
  emailVerified : Bool
  passwordHash : Option PwHash
  displayName : Option String
  avatarUrl : Option String
  status : UserStatus
  lastLoginAt : Option Nat
deriving DecidableEq

/-- `refresh_tokens` table row; deviceInfo and createdAt omitted. -/
structure RefreshTokenRow where
  id : Nat
  userId : Nat
  tokenHash : Digest
  expiresAt : Nat
  revokedAt : Option Nat
deriving DecidableEq

/-- `verification_tokens` table row.  The `token` column stores the raw
opaque value, exactly as `authService.register` and
`authService.requestPasswordReset` write it. -/
structure VerificationTokenRow where
  id : Nat
  userId : Nat
  token : String
  tokenType : OneTimeKind
  expiresAt : Nat
  usedAt : Option Nat
deriving DecidableEq

/-- `oauth_providers` table row; metadata and timestamps omitted. -/
structure OAuthProviderRow where
  id : Nat
  userId : Nat
  provider : String
  providerUserId : String
  providerEmail : Option String
  accessToken : Option String
  refreshToken : Option String
  tokenExpiresAt : Option Nat
deriving DecidableEq

/-- `auth_audit_log` row; ip/user-agent/metadata omitted. -/
structure AuditRow where
  userId : Option Nat
  eventType : String
  success : Bool
deriving DecidableEq

/-- The credential store: one list per table plus an id counter. -/
structure Store where
  users : List User
  refreshTokens : List RefreshTokenRow
  verificationTokens : List VerificationTokenRow
  oauthProviders : List OAuthProviderRow
  auditLog : List AuditRow
  nextId : Nat
deriving DecidableEq

/-- The empty store. -/
def emptyStore : Store := ⟨[], [], [], [], [], 0⟩

/-- Process-wide configuration (config part of src/unnamed/part_008):
`jwt.secret`, `jwt.accessTokenExpiry` (default 15m), `jwt.refreshTokenExpiry`
(default 30d), expiries in milliseconds. -/
structure Config where
  secret : String
  accessTokenExpiry : Nat
  refreshTokenExpiry : Nat
deriving DecidableEq

/-- `issuer` option used by utils/jwt.ts. -/
def issuerName : String := "auth-system"

/-- `audience` option used by utils/jwt.ts. -/
def audienceName : String := "auth-system-api"

/-- The hard-coded 30-day DB expiry for refresh-token rows
(`30 * 24 * 60 * 60 * 1000` in authService). -/
def refreshRowTtlMs : Nat := 30 * 24 * 60 * 60 * 1000

/-- 24-hour expiry for email-verification tokens. -/
def verificationTtlMs : Nat := 24 * 60 * 60 * 1000

/-- 1-hour expiry for password-reset tokens. -/
def resetTtlMs : Nat := 60 * 60 * 1000

/-- `generateAccessToken` from utils/jwt.ts. -/
def generateAccessToken (cfg : Config) (now : Nat) (userId : Nat) (email : String) : Jwt :=
  { payload := ⟨userId, email, .access⟩
    iss := issuerName
    aud := audienceName
    exp := now + cfg.accessTokenExpiry
    sig := cfg.secret }

/-- `generateRefreshToken` from utils/jwt.ts. -/
def generateRefreshToken (cfg : Config) (now : Nat) (userId : Nat) (email : String) : Jwt :=
  { payload := ⟨userId, email, .refresh⟩
    iss := issuerName
    aud := audienceName
    exp := now + cfg.refreshTokenExpiry
    sig := cfg.secret }

/-- `TokenPair` from utils/jwt.ts. -/
structure TokenPair where
  accessToken : Jwt
  refreshToken : Jwt
  expiresIn : Nat
deriving DecidableEq

/-- `generateTokenPair` from utils/jwt.ts. -/
def generateTokenPair (cfg : Config) (now : Nat) (userId : Nat) (email : String) : TokenPair :=
  { accessToken := generateAccessToken cfg now userId email
    refreshToken := generateRefreshToken cfg now userId email
    expiresIn := cfg.accessTokenExpiry }

/-- `verifyToken` from utils/jwt.ts: fails with Invalid token when the
signature, issuer or audience do not match (jwt.JsonWebTokenError), with
Token has expired when past expiry (jwt.TokenExpiredError). -/
def verifyToken (cfg : Config) (now : Nat) (t : RawToken) : Except AuthError JwtPayload :=
  match t with
  | .other _ => .error (.unauthorizedError "Invalid token")
  | .jwt j =>
    if j.sig != cfg.secret || j.iss != issuerName || j.aud != audienceName then
      .error (.unauthorizedError "Invalid token")
    else if j.exp ≤ now then
      .error (.unauthorizedError "Token has expired")
    else
      .ok j.payload

/-- `logAuditEvent` in authService (success paths). -/
def logAuditEvent (st : Store) (userId : Option Nat) (eventType : String) (ok : Bool) : Store :=
  { st with auditLog := st.auditLog ++ [⟨userId, eventType, ok⟩] }

/-- `RegisterDto`. -/
structure RegisterDto where
  email : String
  password : String
  displayName : Option String
deriving DecidableEq

/-- `LoginDto`. -/
structure LoginDto where
  email : String
  password : String
deriving DecidableEq

/-- User projection returned by register (no avatarUrl). -/
structure RegisterProjection where
  id : Nat
  email : Option String
  displayName : Option String
  emailVerified : Bool
deriving DecidableEq

/-- User projection returned by login / OAuth callback. -/
structure UserProjection where
  id : Nat
  email : Option String
  displayName : Option String
  emailVerified : Bool
  avatarUrl : Option String
deriving DecidableEq

/-- Result of `register`. -/
structure RegisterResult where
  user : RegisterProjection
  message : String
deriving DecidableEq

/-- Result of `login`. -/
structure LoginResult where
  user : UserProjection
  accessToken : Jwt
  refreshToken : Jwt
  tokenType : String
  expiresIn : Nat
deriving DecidableEq

/-- Result of `refreshAccessToken`. -/
structure RefreshResult where
  accessToken : Jwt
  refreshToken : Jwt
  tokenType : String
  expiresIn : Nat
deriving DecidableEq

/-- `OAuthProfile` from types/index.ts: a verified external assertion. -/
structure OAuthProfile where
  provider : String
  providerId : String
  email : String
  displayName : Option String
  avatarUrl : Option String
  accessToken : String
  refreshToken : Option String
  expiresAt : Option Nat
deriving DecidableEq

/-- Result of `handleOAuthCallback`. -/
structure OAuthResult where
  user : UserProjection
  accessToken : Jwt
  refreshToken : Jwt
  tokenType : String
  expiresIn : Nat
  isNewUser : Bool
deriving DecidableEq

/-- Projection used by login and the OAuth callback. -/
def projectUser (u : User) : UserProjection :=
  ⟨u.id, u.email, u.displayName, u.emailVerified, u.avatarUrl⟩

/-- `AuthService.register` (part_002 lines 227-297): validate password
strength, reject duplicate email, create the account unverified, issue a
24-hour email_verification one-time token storing its raw value, audit
REGISTER.  `fresh` is the `generateToken()` output, `salt` the bcrypt salt. -/
def register (st : Store) (data : RegisterDto) (now salt : Nat) (fresh : String) :
    Except AuthError (Store × RegisterResult) :=
  let v := validatePasswordStrength data.password
  if !v.1 then
    .error (.validationError (String.intercalate ", " v.2))
  else
    match st.users.find? (fun u => u.email == some data.email) with
    | some _ => .error (.conflictError "User with this email already exists")
    | none =>
      let passwordHash := hashPassword data.password salt
      let newUser : User :=
        { id := st.nextId, email := some data.email, emailVerified := false
          passwordHash := some passwordHash, displayName := data.displayName
          avatarUrl := none, status := .active, lastLoginAt := none }
      let st1 : Store := { st with users := st.users ++ [newUser], nextId := st.nextId + 1 }
      let vrow : VerificationTokenRow :=
        { id := st1.nextId, userId := newUser.id, token := fresh
          tokenType := .emailVerification, expiresAt := now + verificationTtlMs, usedAt := none }
      let st2 : Store :=
        { st1 with verificationTokens := st1.verificationTokens ++ [vrow], nextId := st1.nextId + 1 }
      let st3 := logAuditEvent st2 (some newUser.id) "user.register" true
      .ok (st3,
        { user := ⟨newUser.id, newUser.email, newUser.displayName, newUser.emailVerified⟩
          message := "Registration successful. Please check your email to verify your account." })

/-- `AuthService.login` (part_002 lines 302-376): absent user and missing
password hash and wrong password all fail with the identical message;
inactive status fails with a distinct message; on success issue a token pair,
store the refresh token hash with a 30-day expiry, update last login, audit
LOGIN. -/
def login (cfg : Config) (st : Store) (data : LoginDto) (now : Nat) :
    Except AuthError (Store × LoginResult) :=
  match st.users.find? (fun u => u.email == some data.email) with
  | none => .error (.unauthorizedError "Invalid email or password")
  | some user =>
    match user.passwordHash with
    | none => .error (.unauthorizedError "Invalid email or password")
    | some ph =>
      if !verifyPassword data.password ph then
        .error (.unauthorizedError "Invalid email or password")
      else if user.status != UserStatus.active then
        .error (.unauthorizedError "Account is not active")
      else
        let tokens := generateTokenPair cfg now user.id (user.email.getD "")
        let rrow : RefreshTokenRow :=
          { id := st.nextId, userId := user.id
            tokenHash := hashToken (.jwt tokens.refreshToken)
            expiresAt := now + refreshRowTtlMs, revokedAt := none }
        let st1 : Store :=
          { st with refreshTokens := st.refreshTokens ++ [rrow], nextId := st.nextId + 1 }
        let st2 : Store :=
          { st1 with users := st1.users.map (fun u =>
              if u.id == user.id then { u with lastLoginAt := some now } else u) }
        let st3 := logAuditEvent st2 (some user.id) "user.login" true
        .ok (st3,
          { user := projectUser user, accessToken := tokens.accessToken
            refreshToken := tokens.refreshToken, tokenType := "Bearer"
            expiresIn := tokens.expiresIn })

/-- `AuthService.refreshAccessToken` (part_002 lines 381-442): look up an
unexpired row by the raw token hash, reject absent or revoked rows and
missing or inactive owners, revoke the old row, insert a brand-new row with
a fresh hash and 30-day expiry, audit TOKEN_REFRESH.  The signed token is
never verified on this path. -/
def refreshAccessToken (cfg : Config) (st : Store) (raw : RawToken) (now : Nat) :
    Except AuthError (Store × RefreshResult) :=
  let tokenHash := hashToken raw
  match st.refreshTokens.find? (fun r => r.tokenHash == tokenHash && decide (now < r.expiresAt)) with
  | none => .error (.unauthorizedError "Invalid or expired refresh token")
  | some token =>
    if token.revokedAt.isSome then
      .error (.unauthorizedError "Invalid or expired refresh token")
    else
      match st.users.find? (fun u => u.id == token.userId) with
      | none => .error (.unauthorizedError "User not found or inactive")
      | some user =>
        if user.status != UserStatus.active then
          .error (.unauthorizedError "User not found or inactive")
        else
          let tokens := generateTokenPair cfg now user.id (user.email.getD "")
          let st1 : Store :=
            { st with refreshTokens := st.refreshTokens.map (fun r =>
                if r.id == token.id then { r with revokedAt := some now } else r) }
          let newRow : RefreshTokenRow :=
            { id := st1.nextId, userId := user.id
              tokenHash := hashToken (.jwt tokens.refreshToken)
              expiresAt := now + refreshRowTtlMs, revokedAt := none }
          let st2 : Store :=
            { st1 with refreshTokens := st1.refreshTokens ++ [newRow], nextId := st1.nextId + 1 }
          let st3 := logAuditEvent st2 (some user.id) "user.token.refresh" true
          .ok (st3,
            { accessToken := tokens.accessToken, refreshToken := tokens.refreshToken
              tokenType := "Bearer", expiresIn := tokens.expiresIn })

/-- `AuthService.logout` (part_002 lines 447-465): revoke the matching row
scoped to the account; idempotent, never fails. -/
def logout (st : Store) (raw : RawToken) (userId : Nat) (now : Nat) : Store × String :=
  let tokenHash := hashToken raw
  let st1 : Store :=
    { st with refreshTokens := st.refreshTokens.map (fun r =>
        if r.tokenHash == tokenHash && r.userId == userId then
          { r with revokedAt := some now } else r) }
  let st2 := logAuditEvent st1 (some userId) "user.logout" true
  (st2, "Logged out successfully")

/-- `AuthService.verifyEmail` (part_002 lines 470-523): look up an unexpired
email_verification row by raw token value, reject absent or used rows, set
emailVerified, mark the token used, audit EMAIL_VERIFY when the owner
exists. -/
def verifyEmail (st : Store) (tok : String) (now : Nat) :
    Except AuthError (Store × String) :=
  match st.verificationTokens.find? (fun v =>
      v.token == tok && v.tokenType == OneTimeKind.emailVerification
        && decide (now < v.expiresAt)) with
  | none => .error (.validationError "Invalid or expired verification token")
  | some vt =>
    if vt.usedAt.isSome then
      .error (.validationError "Invalid or expired verification token")
    else
      let st1 : Store :=
        { st with users := st.users.map (fun u =>
            if u.id == vt.userId then { u with emailVerified := true } else u) }
      let st2 : Store :=
        { st1 with verificationTokens := st1.verificationTokens.map (fun v =>
            if v.id == vt.id then { v with usedAt := some now } else v) }
      let st3 :=
        match st2.users.find? (fun u => u.id == vt.userId) with
        | some user => logAuditEvent st2 (some user.id) "user.email.verify" true
        | none => st2
      .ok (st3, "Email verified successfully")

/-- `AuthService.requestPasswordReset` (part_002 lines 528-564): the same
generic message is returned whether or not the account exists; when it does,
a 1-hour password_reset token is issued storing its raw value, audit
PASSWORD_RESET_REQUEST. -/
def requestPasswordReset (st : Store) (email : String) (now : Nat) (fresh : String) :
    Store × String :=
  match st.users.find? (fun u => u.email == some email) with
  | none => (st, "If the email exists, a password reset link has been sent")
  | some user =>
    let vrow : VerificationTokenRow :=
      { id := st.nextId, userId := user.id, token := fresh
        tokenType := .passwordReset, expiresAt := now + resetTtlMs, usedAt := none }
    let st1 : Store :=
      { st with verificationTokens := st.verificationTokens ++ [vrow], nextId := st.nextId + 1 }
    let st2 := logAuditEvent st1 (some user.id) "user.password.reset.request" true
    (st2, "If the email exists, a password reset link has been sent")

/-- `AuthService.resetPassword` (part_002 lines 569-620): validate strength,
look up an unexpired password_reset row by raw value, reject absent or used
rows, set the new hash, mark the token used, revoke every refresh token of
the account, audit PASSWORD_RESET. -/
def resetPassword (st : Store) (tok newPassword : String) (now salt : Nat) :
    Except AuthError (Store × String) :=
  let v := validatePasswordStrength newPassword
  if !v.1 then
    .error (.validationError (String.intercalate ", " v.2))
  else
    match st.verificationTokens.find? (fun vt =>
        vt.token == tok && vt.tokenType == OneTimeKind.passwordReset
          && decide (now < vt.expiresAt)) with
    | none => .error (.validationError "Invalid or expired reset token")
    | some rt =>
      if rt.usedAt.isSome then
        .error (.validationError "Invalid or expired reset token")
      else
        let newHash := hashPassword newPassword salt
        let st1 : Store :=
          { st with users := st.users.map (fun u =>
              if u.id == rt.userId then { u with passwordHash := some newHash } else u) }
        let st2 : Store :=
          { st1 with verificationTokens := st1.verificationTokens.map (fun v =>
              if v.id == rt.id then { v with usedAt := some now } else v) }
        let st3 : Store :=
          { st2 with refreshTokens := st2.refreshTokens.map (fun r =>
              if r.userId == rt.userId then { r with revokedAt := some now } else r) }
        let st4 := logAuditEvent st3 (some rt.userId) "user.password.reset" true
        .ok (st4, "Password reset successfully")

/-- Step 4 of the reconciliation algorithm: insert the LinkedIdentity row and
audit OAUTH_LINK (part_002 lines 695-713). -/
def linkOAuth (st : Store) (uid : Nat) (p : OAuthProfile) : Store :=
  let row : OAuthProviderRow :=
    { id := st.nextId, userId := uid, provider := p.provider
      providerUserId := p.providerId, providerEmail := some p.email
      accessToken := some p.accessToken, refreshToken := p.refreshToken
      tokenExpiresAt := p.expiresAt }
  let st1 : Store :=
    { st with oauthProviders := st.oauthProviders ++ [row], nextId := st.nextId + 1 }
  logAuditEvent st1 (some uid) "user.oauth.link" true

/-- Tail of `handleOAuthCallback` (part_002 lines 716-761): fail when no user
was resolved, issue tokens, store the refresh token hash, update last login,
audit LOGIN. -/
def finishOAuth (cfg : Config) (st : Store) (userOpt : Option User) (isNew : Bool)
    (now : Nat) : Except AuthError (Store × OAuthResult) :=
  match userOpt with
  | none => .error (.appError "Failed to create or find user")
  | some user =>
    let tokens := generateTokenPair cfg now user.id (user.email.getD "")
    let rrow : RefreshTokenRow :=
      { id := st.nextId, userId := user.id
        tokenHash := hashToken (.jwt tokens.refreshToken)
        expiresAt := now + refreshRowTtlMs, revokedAt := none }
    let st1 : Store :=
      { st with refreshTokens := st.refreshTokens ++ [rrow], nextId := st.nextId + 1 }
    let st2 : Store :=
      { st1 with users := st1.users.map (fun u =>
          if u.id == user.id then { u with lastLoginAt := some now } else u) }
    let st3 := logAuditEvent st2 (some user.id) "user.login" true
    .ok (st3,
      { user := projectUser user, accessToken := tokens.accessToken
        refreshToken := tokens.refreshToken, tokenType := "Bearer"
        expiresIn := tokens.expiresIn, isNewUser := isNew })

/-- `AuthService.handleOAuthCallback` (part_002 lines 625-761), the identity
reconciliation engine: (1) look up the LinkedIdentity by (provider,
providerSubjectId); if found update its provider tokens in place and reuse
its owner; (2) otherwise look up an account by the assertion email and reuse
it; (3) otherwise create a new account with pre-verified email, no password
hash, active status, audit REGISTER; in cases 2 and 3 insert the new
LinkedIdentity; finally issue tokens, update last login and audit LOGIN.
No account-status check is performed anywhere on this path. -/
def handleOAuthCallback (cfg : Config) (st : Store) (p : OAuthProfile) (now : Nat) :
    Except AuthError (Store × OAuthResult) :=
  match st.oauthProviders.find? (fun q =>
      q.provider == p.provider && q.providerUserId == p.providerId) with
  | some existing =>
    let userOpt := st.users.find? (fun u => u.id == existing.userId)
    let st1 : Store :=
      { st with oauthProviders := st.oauthProviders.map (fun q =>
          if q.id == existing.id then
            { q with
              accessToken := some p.accessToken
              refreshToken := p.refreshToken
              tokenExpiresAt := p.expiresAt }
          else q) }
    finishOAuth cfg st1 userOpt false now
  | none =>
    match st.users.find? (fun u => u.email == some p.email) with
    | some existingUser =>
      let st1 := linkOAuth st existingUser.id p
      finishOAuth cfg st1 (some existingUser) false now
    | none =>
      let newUser : User :=
        { id := st.nextId, email := some p.email, emailVerified := true
          passwordHash := none, displayName := p.displayName
          avatarUrl := p.avatarUrl, status := .active, lastLoginAt := none }
      let st1 : Store := { st with users := st.users ++ [newUser], nextId := st.nextId + 1 }
      let st2 := logAuditEvent st1 (some newUser.id) "user.register" true
      let st3 := linkOAuth st2 newUser.id p
      finishOAuth cfg st3 (some newUser) true now

/-- `AuthService.removeOAuthProvider` (part_002 lines 766-807): delete the
LinkedIdentity row when present and audit OAUTH_UNLINK; return false when it
was never linked. -/
def removeOAuthProvider (st : Store) (provider providerUserId : String) : Store × Bool :=
  match st.oauthProviders.find? (fun q =>
      q.provider == provider && q.providerUserId == providerUserId) with
  | none => (st, false)
  | some existing =>
    let st1 : Store :=
      { st with oauthProviders := st.oauthProviders.filter (fun q => !(q.id == existing.id)) }
    let st2 := logAuditEvent st1 (some existing.userId) "user.oauth.unlink" true
    (st2, true)

/-- One lifecycle operation, bundling the arguments of every `AuthService`
method so store-level invariants can be stated over all operations at once. -/
inductive Op where
  | opRegister (data : RegisterDto) (salt : Nat) (fresh : String)
  | opLogin (data : LoginDto)
  | opRefresh (raw : RawToken)
  | opLogout (raw : RawToken) (userId : Nat)
  | opVerifyEmail (tok : String)
  | opRequestPasswordReset (email : String) (fresh : String)
  | opResetPassword (tok : String) (newPassword : String) (salt : Nat)
  | opOAuthCallback (p : OAuthProfile)
  | opRemoveOAuthProvider (provider : String) (providerUserId : String)

/-- Run one operation, keeping only the resulting store. -/
def step (cfg : Config) (st : Store) (now : Nat) (o : Op) : Except AuthError Store :=
  match o with
  | .opRegister d s f => (register st d now s f).map Prod.fst
  | .opLogin d => (login cfg st d now).map Prod.fst
  | .opRefresh raw => (refreshAccessToken cfg st raw now).map Prod.fst
  | .opLogout raw uid => .ok (logout st raw uid now).1
  | .opVerifyEmail tok => (verifyEmail st tok now).map Prod.fst
  | .opRequestPasswordReset email fresh => .ok (requestPasswordReset st email now fresh).1
  | .opResetPassword tok pw salt => (resetPassword st tok pw now salt).map Prod.fst
  | .opOAuthCallback p => (handleOAuthCallback cfg st p now).map Prod.fst
  | .opRemoveOAuthProvider pr pid => .ok (removeOAuthProvider st pr pid).1

/-! Concrete inputs used by witnesses and counterexamples. -/

/-- A configuration with the default 15m / 30d expiries (in ms). -/
def cfgW : Config := ⟨"s", 900000, 2592000000⟩

/-- A refresh JWT signed with the secret of `cfgW`. -/
def jwtW : Jwt := ⟨⟨0, "a@x.com", .refresh⟩, issuerName, audienceName, 500000, "s"⟩

/-- The raw form of `jwtW`. -/
def rawW : RawToken := .jwt jwtW

/-- An active account. -/
def userW : User := ⟨0, some "a@x.com", true, none, none, none, .active, none⟩

/-- A live stored refresh-token row for `rawW`, owned by `userW`. -/
def rowW : RefreshTokenRow := ⟨1, 0, hashToken rawW, 2000000, none⟩

/-- A store holding `userW` and the live row for `rawW`. -/
def stW : Store := ⟨[userW], [rowW], [], [], [], 2⟩

/-- The outcome of refreshing `rawW` against `stW` at time 1000. -/
def refreshOutW : Store × RefreshResult :=
  match refreshAccessToken cfgW stW rawW 1000 with
  | .ok x => x
  | .error _ => (stW, ⟨jwtW, jwtW, "", 0⟩)

/-- A configuration whose signing key differs from the one `jwtC` was signed
with (the key was rotated after `jwtC` was issued). -/
def cfgC : Config := ⟨"newsecret", 900000, 2592000000⟩

/-- A refresh JWT signed with the old, rotated-out secret. -/
def jwtC : Jwt := ⟨⟨0, "a@x.com", .refresh⟩, issuerName, audienceName, 500000, "oldsecret"⟩

/-- The raw form of `jwtC`. -/
def rawC : RawToken := .jwt jwtC

/-- A live stored row for `rawC` written before the key rotation. -/
def rowC : RefreshTokenRow := ⟨1, 0, hashToken rawC, 2000000, none⟩

/-- A store holding `userW` and the live row for `rawC`. -/
def stC : Store := ⟨[userW], [rowC], [], [], [], 2⟩

/-- A live password_reset one-time token row for `userW`. -/
def resetRowW : VerificationTokenRow := ⟨2, 0, "resettok", .passwordReset, 5000, none⟩

/-- A store holding `userW`, the live refresh row for `rawW` and the live
reset token `resetRowW`. -/
def stResetW : Store := ⟨[userW], [rowW], [resetRowW], [], [], 3⟩

/-- The outcome of resetting the password with `resetRowW` at time 1000. -/
def resetOutW : Store × String :=
  match resetPassword stResetW "resettok" "NewStr0ng!" 1000 9 with
  | .ok x => x
  | .error _ => (stResetW, "")

/-- Registration data passing the strength policy. -/
def regDataW : RegisterDto := ⟨"b@x.com", "Str0ng!pw", none⟩

/-- The outcome of registering `regDataW` on the empty store. -/
def regOutW : Store × RegisterResult :=
  match register emptyStore regDataW 1000 7 "rawtok123" with
  | .ok x => x
  | .error _ => (emptyStore, ⟨⟨0, none, none, false⟩, ""⟩)

/-- A verified external assertion from Google. -/
def pGW : OAuthProfile := ⟨"google", "sub1", "g@x.com", some "G", none, "at1", some "rt1", some 5000⟩

/-- The outcome of the first submission of `pGW` on the empty store. -/
def oauthOutW : Store × OAuthResult :=
  match handleOAuthCallback cfgW emptyStore pGW 1000 with
  | .ok x => x
  | .error _ => (emptyStore, ⟨⟨0, none, none, false, none⟩, jwtW, jwtW, "", 0, true⟩)

/-- An assertion from an unseen provider pair carrying the email of `userW`. -/
def pAW : OAuthProfile := ⟨"github", "subA", "a@x.com", none, none, "atA", none, none⟩

/-- An account whose stored email is the empty string (creatable by a prior
empty-email assertion). -/
def userE : User := ⟨0, some "", true, none, none, none, .active, none⟩

/-- A store holding only `userE`. -/
def stE : Store := ⟨[userE], [], [], [], [], 1⟩

/-- An empty-email assertion whose provider pair has never been seen. -/
def pE : OAuthProfile := ⟨"facebook", "s2", "", none, none, "at", none, none⟩

/-- The outcome of submitting `pE` against `stE`. -/
def oauthOutE : Store × OAuthResult :=
  match handleOAuthCallback cfgW stE pE 1000 with
  | .ok x => x
  | .error _ => (stE, ⟨⟨0, none, none, false, none⟩, jwtW, jwtW, "", 0, true⟩)

/-- A suspended account. -/
def userSuspW : User := ⟨0, some "s@x.com", true, none, none, none, .suspended, none⟩

/-- A LinkedIdentity row binding a provider pair to `userSuspW`. -/
def qSuspW : OAuthProviderRow := ⟨1, 0, "google", "sub9", some "s@x.com", none, none, none⟩

/-- A store holding the suspended account and its linked pair. -/
def stSuspW : Store := ⟨[userSuspW], [], [], [qSuspW], [], 2⟩

/-- An assertion for the pair linked to the suspended account. -/
def pSuspW : OAuthProfile := ⟨"google", "sub9", "s@x.com", none, none, "at", none, none⟩

/-- A store holding only the suspended account, with no linked pair. -/
def stSusp2W : Store := ⟨[userSuspW], [], [], [], [], 1⟩

/-- An assertion with an unseen pair whose email matches the suspended
account. -/
def pSusp2W : OAuthProfile := ⟨"google", "subX", "s@x.com", none, none, "at", none, none⟩

/-- A suspended account that has a password hash. -/
def userSuspPwW : User :=
  ⟨0, some "s@x.com", true, some ⟨"Pw1!aaaa", 1⟩, none, none, .suspended, none⟩

/-- A store holding only `userSuspPwW`. -/
def stSusp3W : Store := ⟨[userSuspPwW], [], [], [], [], 1⟩

/-- An active account with a password hash. -/
def userPwW : User := ⟨0, some "a@x.com", true, some ⟨"Pw1!aaaa", 1⟩, none, none, .active, none⟩

/-- A store holding only `userPwW`. -/
def stPwW : Store := ⟨[userPwW], [], [], [], [], 1⟩

/-- Login credentials matching `userPwW`. -/
def loginDtoW : LoginDto := ⟨"a@x.com", "Pw1!aaaa"⟩

/-- The outcome of logging `userPwW` in at time 1000. -/
def loginOutW : Store × LoginResult :=
  match login cfgW stPwW loginDtoW 1000 with
  | .ok x => x
  | .error _ => (stPwW, ⟨⟨0, none, none, false, none⟩, jwtW, jwtW, "", 0⟩)

end AuthSystem

/-! # Theorems -/

namespace AuthSystem

/-- Two members of a list that is pairwise-distinct under a key agree when
their keys agree (models a SQL unique constraint). -/
theorem mem_eq_of_pairwise_key {α κ : Type} (key : α → κ) {l : List α}
    (h : l.Pairwise (fun a b => key a ≠ key b)) {a b : α}
    (ha : a ∈ l) (hb : b ∈ l) (heq : key a = key b) : a = b := by
  by_contra hne
  have hsym : Symmetric (fun a b : α => key a ≠ key b) :=
    fun x y hxy he => hxy he.symm
  exact (List.Pairwise.forall hsym h ha hb hne) heq

/-- Unpack `Except.map Prod.fst` success. -/
theorem map_fst_ok {ε α β : Type} {x : Except ε (α × β)} {a : α}
    (h : x.map Prod.fst = .ok a) : ∃ b, x = .ok (a, b) := by
  cases x with
  | error e => simp [Except.map] at h
  | ok p =>
    simp [Except.map] at h
    exact ⟨p.2, by rw [← h]⟩

/-- When every stored row whose hash matches the presented raw token is
revoked, `refreshAccessToken` rejects with the lookup-failure message. -/
theorem refreshAccessToken_error_of_all_revoked (cfg : Config) (st : Store)
    (t : RawToken) (now : Nat)
    (h : ∀ r ∈ st.refreshTokens, r.tokenHash = hashToken t → r.revokedAt.isSome) :
    refreshAccessToken cfg st t now =
      .error (.unauthorizedError "Invalid or expired refresh token") := by
  unfold refreshAccessToken
  cases hfind : st.refreshTokens.find?
      (fun r => r.tokenHash == hashToken t && decide (now < r.expiresAt)) with
  | none => simp [hfind]
  | some r =>
    have hmem := List.mem_of_find?_eq_some hfind
    have hp := List.find?_some hfind
    simp only [Bool.and_eq_true, beq_iff_eq, decide_eq_true_eq] at hp
    have hrev := h r hmem hp.1
    simp [hfind, hrev]

/-- Success shape of `refreshAccessToken`: the facts established by the
control flow and the exact form of the rotated refresh-token table. -/
theorem refreshAccessToken_ok_shape {cfg : Config} {st : Store} {raw : RawToken}
    {now : Nat} {st' : Store} {res : RefreshResult}
    (h : refreshAccessToken cfg st raw now = .ok (st', res)) :
    ∃ token user,
      st.refreshTokens.find?
          (fun r => r.tokenHash == hashToken raw && decide (now < r.expiresAt)) = some token ∧
      token.revokedAt = none ∧
      st.users.find? (fun u => u.id == token.userId) = some user ∧
      user.status = .active ∧
      res.refreshToken = generateRefreshToken cfg now user.id (user.email.getD "") ∧
      st'.refreshTokens =
        (st.refreshTokens.map
          (fun r => if r.id == token.id then { r with revokedAt := some now } else r))
        ++ [⟨st.nextId, user.id, hashToken (.jwt res.refreshToken),
             now + refreshRowTtlMs, none⟩] ∧
      st'.verificationTokens = st.verificationTokens ∧
      st'.users = st.users := by
  simp only [refreshAccessToken] at h
  split at h
  · exact absurd h (by simp)
  next token hfind =>
    split at h
    · exact absurd h (by simp)
    next hrev =>
      split at h
      · exact absurd h (by simp)
      next user huser =>
        split at h
        · exact absurd h (by simp)
        next hstatus =>
          refine ⟨token, user, hfind, Option.not_isSome_iff_eq_none.mp (by simpa using hrev),
            huser, ?_, ?_, ?_, ?_, ?_⟩
          · simpa [bne_iff_ne] using hstatus
          · simp only [Except.ok.injEq, Prod.mk.injEq] at h
            rw [← h.2]
            simp [generateTokenPair]
          · simp only [Except.ok.injEq, Prod.mk.injEq] at h
            rw [← h.1, ← h.2]
            simp [logAuditEvent, generateTokenPair]
          · simp only [Except.ok.injEq, Prod.mk.injEq] at h
            rw [← h.1]
            simp [logAuditEvent]
          · simp only [Except.ok.injEq, Prod.mk.injEq] at h
            rw [← h.1]
            simp [logAuditEvent]

/-- C1: after a successful `RefreshAccessToken(t)` the old RefreshToken row is
revoked and a brand-new row (fresh hash, 30-day expiry, unrevoked) is
inserted, and any later call with the same raw `t` fails with
`UnauthorizedError`.  The hypothesis that the newly issued token differs from
`t` models the fresh randomness of token generation (the unique constraint on
`token_hash` in db/schema.ts). -/
theorem c1_refresh_rotation (cfg : Config) (st : Store) (t : RawToken) (now : Nat)
    (st' : Store) (res : RefreshResult)
    (hwf : st.refreshTokens.Pairwise (fun a b => a.tokenHash ≠ b.tokenHash))
    (hok : refreshAccessToken cfg st t now = .ok (st', res))
    (hfresh : RawToken.jwt res.refreshToken ≠ t) :
    hashToken (.jwt res.refreshToken) ≠ hashToken t ∧
    (∃ old ∈ st.refreshTokens, old.tokenHash = hashToken t ∧ old.revokedAt = none ∧
      ∃ old' ∈ st'.refreshTokens, old'.id = old.id ∧ old'.revokedAt = some now) ∧
    (∃ nw ∈ st'.refreshTokens, nw.tokenHash = hashToken (.jwt res.refreshToken) ∧
      nw.expiresAt = now + refreshRowTtlMs ∧ nw.revokedAt = none) ∧
    (∀ now2 : Nat, refreshAccessToken cfg st' t now2 =
      .error (.unauthorizedError "Invalid or expired refresh token")) := by
  obtain ⟨token, user, hfind, hrev, huser, hstatus, hres, hrt, -, -⟩ :=
    refreshAccessToken_ok_shape hok
  have htmem := List.mem_of_find?_eq_some hfind
  have htp := List.find?_some hfind
  simp only [Bool.and_eq_true, beq_iff_eq, decide_eq_true_eq] at htp
  have hhash : hashToken (.jwt res.refreshToken) ≠ hashToken t := by
    intro he
    exact hfresh (Digest.mk.injEq _ _ ▸ congrArg Digest.val he)
  have hallrev : ∀ r ∈ st'.refreshTokens, r.tokenHash = hashToken t → r.revokedAt.isSome := by
    intro r hr hrhash
    rw [hrt] at hr
    rcases List.mem_append.mp hr with hr | hr
    · obtain ⟨r0, hr0, hr0eq⟩ := List.mem_map.mp hr
      subst hr0eq
      have hr0hash : r0.tokenHash = hashToken t := by
        by_cases hid : (r0.id == token.id) = true
        · simpa [hid] using hrhash
        · simpa [hid] using hrhash
      have hr0tok : r0 = token :=
        mem_eq_of_pairwise_key (fun x => x.tokenHash) hwf hr0 htmem (hr0hash.trans htp.1.symm)
      subst hr0tok
      simp
    · simp only [List.mem_singleton] at hr
      subst hr
      exact absurd hrhash hhash
  refine ⟨hhash, ⟨token, htmem, htp.1, hrev, ?_⟩, ?_, fun now2 =>
    refreshAccessToken_error_of_all_revoked cfg st' t now2 hallrev⟩
  · refine ⟨{ token with revokedAt := some now }, ?_, rfl, rfl⟩
    rw [hrt]
    refine List.mem_append.mpr (Or.inl ?_)
    have := List.mem_map_of_mem
      (fun r => if r.id == token.id then { r with revokedAt := some now } else r) htmem
    simpa using this
  · refine ⟨⟨st.nextId, user.id, hashToken (.jwt res.refreshToken),
      now + refreshRowTtlMs, none⟩, ?_, rfl, rfl, rfl⟩
    rw [hrt]
    exact List.mem_append.mpr (Or.inr (List.mem_singleton.mpr rfl))

/-- Success shape of `resetPassword`: the consumed token row and the exact
form of the updated verification-token and refresh-token tables. -/
theorem resetPassword_ok_shape {st : Store} {tok newPw : String} {now salt : Nat}
    {st' : Store} {msg : String}
    (h : resetPassword st tok newPw now salt = .ok (st', msg)) :
    ∃ rt ∈ st.verificationTokens,
      rt.token = tok ∧ rt.tokenType = .passwordReset ∧ now < rt.expiresAt ∧
      rt.usedAt = none ∧
      st'.verificationTokens = st.verificationTokens.map
        (fun v => if v.id == rt.id then { v with usedAt := some now } else v) ∧
      st'.refreshTokens = st.refreshTokens.map
        (fun r => if r.userId == rt.userId then { r with revokedAt := some now } else r) := by
  simp only [resetPassword] at h
  split at h
  · exact absurd h (by simp)
  split at h
  · exact absurd h (by simp)
  next rt hfind =>
    split at h
    · exact absurd h (by simp)
    next hused =>
      have hmem := List.mem_of_find?_eq_some hfind
      have hp := List.find?_some hfind
      simp only [Bool.and_eq_true, beq_iff_eq, decide_eq_true_eq] at hp
      simp only [Except.ok.injEq, Prod.mk.injEq] at h
      refine ⟨rt, hmem, hp.1.1, hp.1.2, hp.2,
        Option.not_isSome_iff_eq_none.mp (by simpa using hused), ?_, ?_⟩
      · rw [← h.1]; simp [logAuditEvent]
      · rw [← h.1]; simp [logAuditEvent]

/-- C4: after a successful `ResetPassword` every RefreshToken row of the
account is revoked, so any refresh token issued to that account before the
reset fails on `RefreshAccessToken` with `UnauthorizedError`. -/
theorem c4_reset_invalidates_sessions (cfg : Config) (st : Store)
    (tok newPw : String) (now salt : Nat) (t : RawToken) (st' : Store) (msg : String)
    (hwfh : st.refreshTokens.Pairwise (fun a b => a.tokenHash ≠ b.tokenHash))
    (hwft : st.verificationTokens.Pairwise (fun a b => a.token ≠ b.token))
    (hok : resetPassword st tok newPw now salt = .ok (st', msg))
    (rrow : RefreshTokenRow) (hr : rrow ∈ st.refreshTokens)
    (hhash : rrow.tokenHash = hashToken t)
    (vrow : VerificationTokenRow) (hv : vrow ∈ st.verificationTokens)
    (hvtok : vrow.token = tok) (howner : rrow.userId = vrow.userId) :
    (∀ r ∈ st'.refreshTokens, r.userId = vrow.userId → r.revokedAt = some now) ∧
    (∀ now2 : Nat, refreshAccessToken cfg st' t now2 =
      .error (.unauthorizedError "Invalid or expired refresh token")) := by
  obtain ⟨rt, hrtmem, hrttok, _, _, _, _, hrts⟩ := resetPassword_ok_shape hok
  have hrteq : rt = vrow :=
    mem_eq_of_pairwise_key (fun v => v.token) hwft hrtmem hv (hrttok.trans hvtok.symm)
  subst hrteq
  have hall1 : ∀ r ∈ st'.refreshTokens, r.userId = rt.userId → r.revokedAt = some now := by
    intro r hrm hru
    rw [hrts] at hrm
    obtain ⟨r0, hr0, hr0eq⟩ := List.mem_map.mp hrm
    subst hr0eq
    by_cases hid : (r0.userId == rt.userId) = true
    · simp [hid]
    · have : r0.userId = rt.userId := by simpa [hid] using hru
      exact absurd (beq_iff_eq.mpr this) hid
  refine ⟨hall1, fun now2 => refreshAccessToken_error_of_all_revoked cfg st' t now2 ?_⟩
  intro r hrm hrhash
  rw [hrts] at hrm
  obtain ⟨r0, hr0, hr0eq⟩ := List.mem_map.mp hrm
  subst hr0eq
  have hr0hash : r0.tokenHash = hashToken t := by
    by_cases hid : (r0.userId == rt.userId) = true
    · simpa [hid] using hrhash
    · simpa [hid] using hrhash
  have hr0r : r0 = rrow :=
    mem_eq_of_pairwise_key (fun x => x.tokenHash) hwfh hr0 hr (hr0hash.trans hhash.symm)
  subst hr0r
  simp [beq_iff_eq.mpr howner]

/-- Witness for C4 at the concrete store `stResetW`. -/
theorem c4_reset_invalidates_sessions_witness :
    (∀ r ∈ resetOutW.1.refreshTokens, r.userId = resetRowW.userId → r.revokedAt = some 1000) ∧
    (∀ now2 : Nat, refreshAccessToken cfgW resetOutW.1 rawW now2 =
      .error (.unauthorizedError "Invalid or expired refresh token")) :=
  c4_reset_invalidates_sessions cfgW stResetW "resettok" "NewStr0ng!" 1000 9 rawW
    resetOutW.1 resetOutW.2 (by decide) (by decide) (by rfl)
    rowW (by decide) (by decide) resetRowW (by decide) (by decide) (by decide)

/-- C6 counterexample: after a signing-key rotation, the raw refresh token
`rawC` fails `verifyToken` (the signed-token check), yet
`refreshAccessToken` accepts it because its hash still matches a live stored
row — the claim that a token failing either check is rejected is false. -/
theorem c6_counterexample :
    verifyToken cfgC 1000 rawC = .error (.unauthorizedError "Invalid token") ∧
    (refreshAccessToken cfgC stC rawC 1000).toOption.isSome = true := by
  exact ⟨rfl, rfl⟩

/-- C6 amended: the validity of a presented refresh token is governed by the
stored RefreshToken record and account status alone — `refreshAccessToken`
succeeds exactly when the hash lookup finds an unexpired row that is
unrevoked and whose owner exists with active status; the signed token itself
is never verified on this path. -/
theorem c6_refresh_record_governed (cfg : Config) (st : Store) (raw : RawToken)
    (now : Nat) :
    (∃ out, refreshAccessToken cfg st raw now = .ok out) ↔
    (∃ row, st.refreshTokens.find?
        (fun r => r.tokenHash == hashToken raw && decide (now < r.expiresAt)) = some row ∧
      row.revokedAt = none ∧
      ∃ u, st.users.find? (fun x => x.id == row.userId) = some u ∧
        u.status = .active) := by
  constructor
  · rintro ⟨⟨st', res⟩, hok⟩
    obtain ⟨token, user, hfind, hrev, huser, hstatus, -, -, -, -⟩ :=
      refreshAccessToken_ok_shape hok
    exact ⟨token, hfind, hrev, user, huser, hstatus⟩
  · rintro ⟨row, hfind, hrev, u, hu, hst⟩
    simp only [refreshAccessToken, hfind, hrev, hu, hst]
    simp

/-- C8 counterexample: registering an account stores the raw one-time
verification token value verbatim in the verification_tokens table — the
store does contain the raw secret, not its `hashToken` digest. -/
theorem c8_counterexample :
    register emptyStore regDataW 1000 7 "rawtok123" = .ok regOutW ∧
    regOutW.1.verificationTokens.map (fun v => v.token) = ["rawtok123"] := by
  exact ⟨rfl, rfl⟩

/-- Success shape of `register`: the exact rows appended. -/
theorem register_ok_shape {st : Store} {data : RegisterDto} {now salt : Nat}
    {fresh : String} {st' : Store} {r : RegisterResult}
    (h : register st data now salt fresh = .ok (st', r)) :
    (validatePasswordStrength data.password).1 = true ∧
    st.users.find? (fun u => u.email == some data.email) = none ∧
    st'.users = st.users ++
      [⟨st.nextId, some data.email, false, some (hashPassword data.password salt),
        data.displayName, none, .active, none⟩] ∧
    st'.verificationTokens = st.verificationTokens ++
      [⟨st.nextId + 1, st.nextId, fresh, .emailVerification,
        now + verificationTtlMs, none⟩] ∧
    st'.refreshTokens = st.refreshTokens ∧
    st'.oauthProviders = st.oauthProviders := by
  simp only [register] at h
  split at h
  next hbad => exact absurd h (by simp)
  next hgood =>
    split at h
    · exact absurd h (by simp)
    next hfind =>
      simp only [Except.ok.injEq, Prod.mk.injEq] at h
      refine ⟨by simpa using hgood, hfind, ?_, ?_, ?_, ?_⟩ <;>
        (rw [← h.1]; simp [logAuditEvent])

/-- Success shape of `login`: the facts established by the control flow and
the exact form of the updated store. -/
theorem login_ok_shape {cfg : Config} {st : Store} {data : LoginDto} {now : Nat}
    {st' : Store} {r : LoginResult}
    (h : login cfg st data now = .ok (st', r)) :
    ∃ user ph, st.users.find? (fun u => u.email == some data.email) = some user ∧
      user.passwordHash = some ph ∧ verifyPassword data.password ph = true ∧
      user.status = .active ∧
      r.refreshToken = generateRefreshToken cfg now user.id (user.email.getD "") ∧
      r.user = projectUser user ∧
      st'.refreshTokens = st.refreshTokens ++
        [⟨st.nextId, user.id, hashToken (.jwt r.refreshToken),
          now + refreshRowTtlMs, none⟩] ∧
      st'.users = st.users.map
        (fun u => if u.id == user.id then { u with lastLoginAt := some now } else u) ∧
      st'.verificationTokens = st.verificationTokens ∧
      st'.oauthProviders = st.oauthProviders := by
  simp only [login] at h
  split at h
  · exact absurd h (by simp)
  next user hfind =>
    split at h
    · exact absurd h (by simp)
    next ph hph =>
      split at h
      next hpw => exact absurd h (by simp)
      next hpw =>
        split at h
        next hstatus => exact absurd h (by simp)
        next hstatus =>
          simp only [Except.ok.injEq, Prod.mk.injEq] at h
          refine ⟨user, ph, hfind, hph, by simpa using hpw,
            by simpa [bne_iff_ne] using hstatus, ?_, ?_, ?_, ?_, ?_, ?_⟩
          · rw [← h.2]; simp [generateTokenPair]
          · rw [← h.2]
          · rw [← h.1, ← h.2]; simp [logAuditEvent, generateTokenPair]
          · rw [← h.1]; simp [logAuditEvent]
          · rw [← h.1]; simp [logAuditEvent]
          · rw [← h.1]; simp [logAuditEvent]

/-- `find?` of a member-satisfied predicate is `some` of a satisfying
member. -/
theorem find?_exists_of_mem {α : Type} (pr : α → Bool) {l : List α} {a : α}
    (ha : a ∈ l) (hpa : pr a = true) :
    ∃ b, l.find? pr = some b ∧ b ∈ l ∧ pr b = true := by
  have hs : (l.find? pr).isSome := List.find?_isSome.mpr ⟨a, ha, hpa⟩
  obtain ⟨b, hb⟩ := Option.isSome_iff_exists.mp hs
  exact ⟨b, hb, List.mem_of_find?_eq_some hb, List.find?_some hb⟩

/-- `find?` commutes with a map that does not change the predicate. -/
theorem find?_map_comm {α : Type} (f : α → α) (pr : α → Bool) (l : List α)
    (h : ∀ a, pr (f a) = pr a) : (l.map f).find? pr = (l.find? pr).map f := by
  induction l with
  | nil => rfl
  | cons a t ih =>
    simp only [List.map_cons, List.find?_cons]
    cases hpa : pr a with
    | true => simp [h a, hpa]
    | false => simp [h a, hpa, ih]

/-- `finishOAuth` on a resolved user always succeeds, with this exact store
and result. -/
theorem finishOAuth_some (cfg : Config) (st : Store) (user : User) (isNew : Bool)
    (now : Nat) :
    finishOAuth cfg st (some user) isNew now =
      .ok
        (logAuditEvent
          { st with
            users := st.users.map
              (fun u => if u.id == user.id then { u with lastLoginAt := some now } else u)
            refreshTokens := st.refreshTokens ++
              [⟨st.nextId, user.id,
                hashToken (.jwt (generateRefreshToken cfg now user.id (user.email.getD ""))),
                now + refreshRowTtlMs, none⟩]
            nextId := st.nextId + 1 }
          (some user.id) "user.login" true,
        ⟨projectUser user, generateAccessToken cfg now user.id (user.email.getD ""),
          generateRefreshToken cfg now user.id (user.email.getD ""), "Bearer",
          cfg.accessTokenExpiry, isNew⟩) := rfl

/-- Reconciliation branch 1 (already-linked pair). -/
theorem handleOAuthCallback_linked {cfg : Config} {st : Store} {p : OAuthProfile}
    {now : Nat} {q : OAuthProviderRow}
    (hq : st.oauthProviders.find?
      (fun x => x.provider == p.provider && x.providerUserId == p.providerId) = some q) :
    handleOAuthCallback cfg st p now =
      finishOAuth cfg
        { st with oauthProviders := st.oauthProviders.map (fun x =>
            if x.id == q.id then
              { x with
                accessToken := some p.accessToken
                refreshToken := p.refreshToken
                tokenExpiresAt := p.expiresAt }
            else x) }
        (st.users.find? (fun u => u.id == q.userId)) false now := by
  simp only [handleOAuthCallback, hq]

/-- Reconciliation branch 3a (unseen pair, email matches an account). -/
theorem handleOAuthCallback_emailMatch {cfg : Config} {st : Store} {p : OAuthProfile}
    {now : Nat} {u : User}
    (hq : st.oauthProviders.find?
      (fun x => x.provider == p.provider && x.providerUserId == p.providerId) = none)
    (hu : st.users.find? (fun x => x.email == some p.email) = some u) :
    handleOAuthCallback cfg st p now =
      finishOAuth cfg (linkOAuth st u.id p) (some u) false now := by
  simp only [handleOAuthCallback, hq, hu]

/-- Reconciliation branch 3b (unseen pair, no email match: new account). -/
theorem handleOAuthCallback_newUser {cfg : Config} {st : Store} {p : OAuthProfile}
    {now : Nat}
    (hq : st.oauthProviders.find?
      (fun x => x.provider == p.provider && x.providerUserId == p.providerId) = none)
    (hu : st.users.find? (fun x => x.email == some p.email) = none) :
    handleOAuthCallback cfg st p now =
      finishOAuth cfg
        (linkOAuth
          (logAuditEvent
            { st with
              users := st.users ++
                [⟨st.nextId, some p.email, true, none, p.displayName,
                  p.avatarUrl, .active, none⟩]
              nextId := st.nextId + 1 }
            (some st.nextId) "user.register" true)
          st.nextId p)
        (some ⟨st.nextId, some p.email, true, none, p.displayName,
          p.avatarUrl, .active, none⟩)
        true now := by
  simp only [handleOAuthCallback, hq, hu]

/-- Postconditions of a successful `handleOAuthCallback`: a LinkedIdentity
row for the asserted pair exists, every such row is owned by the returned
account, and the returned account is present in the store. -/
theorem handleOAuthCallback_post {cfg : Config} {st : Store} {p : OAuthProfile}
    {now : Nat} {st1 : Store} {r1 : OAuthResult}
    (hwf : st.oauthProviders.Pairwise
      (fun a b => ¬(a.provider = b.provider ∧ a.providerUserId = b.providerUserId)))
    (h1 : handleOAuthCallback cfg st p now = .ok (st1, r1)) :
    (∃ q1 ∈ st1.oauthProviders,
      (q1.provider == p.provider && q1.providerUserId == p.providerId) = true) ∧
    (∀ q1 ∈ st1.oauthProviders,
      (q1.provider == p.provider && q1.providerUserId == p.providerId) = true →
        q1.userId = r1.user.id) ∧
    (∃ u' ∈ st1.users, u'.id = r1.user.id) := by
  have hwfk : st.oauthProviders.Pairwise
      (fun a b => (fun x : OAuthProviderRow => (x.provider, x.providerUserId)) a ≠
        (fun x : OAuthProviderRow => (x.provider, x.providerUserId)) b) := by
    refine hwf.imp ?_
    intro a b hab he
    exact hab ⟨congrArg Prod.fst he, congrArg Prod.snd he⟩
  cases hq : st.oauthProviders.find?
      (fun x => x.provider == p.provider && x.providerUserId == p.providerId) with
  | some q0 =>
    have hq0mem := List.mem_of_find?_eq_some hq
    have hq0p := List.find?_some hq
    simp only [Bool.and_eq_true, beq_iff_eq] at hq0p
    rw [handleOAuthCallback_linked hq] at h1
    cases hu : st.users.find? (fun u => u.id == q0.userId) with
    | none =>
      rw [hu] at h1
      exact absurd h1 (by simp [finishOAuth])
    | some u0 =>
      have hu0mem := List.mem_of_find?_eq_some hu
      have hu0p := List.find?_some hu
      simp only [beq_iff_eq] at hu0p
      rw [hu, finishOAuth_some] at h1
      simp only [Except.ok.injEq, Prod.mk.injEq] at h1
      have hr1 : r1.user.id = u0.id := by rw [← h1.2]; rfl
      have hoauth : st1.oauthProviders = st.oauthProviders.map (fun x =>
          if x.id == q0.id then
            { x with
              accessToken := some p.accessToken
              refreshToken := p.refreshToken
              tokenExpiresAt := p.expiresAt }
          else x) := by
        rw [← h1.1]; simp [logAuditEvent]
      have husers : st1.users = st.users.map
          (fun u => if u.id == u0.id then { u with lastLoginAt := some now } else u) := by
        rw [← h1.1]; simp [logAuditEvent]
      have hpreserve : ∀ x : OAuthProviderRow,
          ((if x.id == q0.id then
            { x with
              accessToken := some p.accessToken
              refreshToken := p.refreshToken
              tokenExpiresAt := p.expiresAt }
          else x).provider == p.provider &&
          (if x.id == q0.id then
            { x with
              accessToken := some p.accessToken
              refreshToken := p.refreshToken
              tokenExpiresAt := p.expiresAt }
          else x).providerUserId == p.providerId) =
          (x.provider == p.provider && x.providerUserId == p.providerId) := by
        intro x
        by_cases hid : (x.id == q0.id) = true <;> simp [hid]
      refine ⟨?_, ?_, ?_⟩
      · rw [hoauth]
        refine ⟨_, List.mem_map_of_mem _ hq0mem, ?_⟩
        rw [hpreserve q0]
        simp [hq0p.1, hq0p.2]
      · intro q1 hq1 hq1p
        rw [hoauth] at hq1
        obtain ⟨q2, hq2, hq2eq⟩ := List.mem_map.mp hq1
        subst hq2eq
        rw [hpreserve q2] at hq1p
        simp only [Bool.and_eq_true, beq_iff_eq] at hq1p
        have hq2q0 : q2 = q0 := by
          refine mem_eq_of_pairwise_key
            (fun x : OAuthProviderRow => (x.provider, x.providerUserId)) hwfk hq2 hq0mem ?_
          simp [hq1p.1, hq1p.2, hq0p.1, hq0p.2]
        subst hq2q0
        rw [hr1]
        by_cases hid : (q2.id == q2.id) = true <;> simp [hid, hu0p]
      · refine ⟨{ u0 with lastLoginAt := some now }, ?_, by simp [hr1]⟩
        rw [husers]
        have := List.mem_map_of_mem
          (fun u => if u.id == u0.id then { u with lastLoginAt := some now } else u) hu0mem
        simpa using this
  | none =>
    have hnostP : ∀ q1 ∈ st.oauthProviders,
        ¬((q1.provider == p.provider && q1.providerUserId == p.providerId) = true) := by
      intro q1 hq1
      simpa using List.find?_eq_none.mp hq q1 hq1
    cases hu : st.users.find? (fun x => x.email == some p.email) with
    | some uA =>
      have huAmem := List.mem_of_find?_eq_some hu
      rw [handleOAuthCallback_emailMatch hq hu, finishOAuth_some] at h1
      simp only [Except.ok.injEq, Prod.mk.injEq] at h1
      have hr1 : r1.user.id = uA.id := by rw [← h1.2]; rfl
      have hoauth : st1.oauthProviders = st.oauthProviders ++
          [⟨st.nextId, uA.id, p.provider, p.providerId, some p.email,
            some p.accessToken, p.refreshToken, p.expiresAt⟩] := by
        rw [← h1.1]; simp [logAuditEvent, linkOAuth]
      have husers : st1.users = st.users.map
          (fun u => if u.id == uA.id then { u with lastLoginAt := some now } else u) := by
        rw [← h1.1]; simp [logAuditEvent, linkOAuth]
      refine ⟨?_, ?_, ?_⟩
      · rw [hoauth]
        refine ⟨_, List.mem_append_right _ (List.mem_singleton.mpr rfl), ?_⟩
        simp
      · intro q1 hq1 hq1p
        rw [hoauth] at hq1
        rcases List.mem_append.mp hq1 with hq1 | hq1
        · exact absurd hq1p (hnostP q1 hq1)
        · rw [List.mem_singleton.mp hq1, hr1]
      · refine ⟨{ uA with lastLoginAt := some now }, ?_, by simp [hr1]⟩
        rw [husers]
        have := List.mem_map_of_mem
          (fun u => if u.id == uA.id then { u with lastLoginAt := some now } else u) huAmem
        simpa using this
    | none =>
      rw [handleOAuthCallback_newUser hq hu, finishOAuth_some] at h1
      simp only [Except.ok.injEq, Prod.mk.injEq] at h1
      have hr1 : r1.user.id = st.nextId := by rw [← h1.2]; rfl
      have hoauth : st1.oauthProviders = st.oauthProviders ++
          [⟨st.nextId + 1, st.nextId, p.provider, p.providerId, some p.email,
            some p.accessToken, p.refreshToken, p.expiresAt⟩] := by
        rw [← h1.1]; simp [logAuditEvent, linkOAuth]
      have husers : st1.users = (st.users ++
          [(⟨st.nextId, some p.email, true, none, p.displayName,
            p.avatarUrl, .active, none⟩ : User)]).map
          (fun u => if u.id == st.nextId then { u with lastLoginAt := some now } else u) := by
        rw [← h1.1]; simp [logAuditEvent, linkOAuth]
      refine ⟨?_, ?_, ?_⟩
      · rw [hoauth]
        refine ⟨_, List.mem_append_right _ (List.mem_singleton.mpr rfl), ?_⟩
        simp
      · intro q1 hq1 hq1p
        rw [hoauth] at hq1
        rcases List.mem_append.mp hq1 with hq1 | hq1
        · exact absurd hq1p (hnostP q1 hq1)
        · rw [List.mem_singleton.mp hq1, hr1]
      · rw [husers]
        refine ⟨_, List.mem_map_of_mem _
          (List.mem_append_right _ (List.mem_singleton.mpr rfl)), ?_⟩
        simp [hr1]

/-- C2: identity reconciliation is idempotent — a second submission of the
same external assertion succeeds, creates no second LinkedIdentity row and no
second Account, resolves to the same owning account, and the LinkedIdentity
row the store resolves for the pair carries the provider tokens of the
assertion updated in place. -/
theorem c2_oauth_idempotent (cfg : Config) (st : Store) (p : OAuthProfile)
    (now now2 : Nat) (st1 : Store) (r1 : OAuthResult)
    (hwf : st.oauthProviders.Pairwise
      (fun a b => ¬(a.provider = b.provider ∧ a.providerUserId = b.providerUserId)))
    (h1 : handleOAuthCallback cfg st p now = .ok (st1, r1)) :
    ∃ st2 r2, handleOAuthCallback cfg st1 p now2 = .ok (st2, r2) ∧
      r2.isNewUser = false ∧
      r2.user.id = r1.user.id ∧
      st2.users.length = st1.users.length ∧
      st2.oauthProviders.length = st1.oauthProviders.length ∧
      ∃ row, st2.oauthProviders.find?
          (fun x => x.provider == p.provider && x.providerUserId == p.providerId) = some row ∧
        row.userId = r1.user.id ∧ row.accessToken = some p.accessToken ∧
        row.refreshToken = p.refreshToken ∧ row.tokenExpiresAt = p.expiresAt := by
  obtain ⟨⟨qa, hqa, hqap⟩, hall, u', hu'mem, hu'id⟩ := handleOAuthCallback_post hwf h1
  obtain ⟨q1, hq1find, hq1mem, hq1p⟩ :=
    find?_exists_of_mem
      (fun x : OAuthProviderRow =>
        x.provider == p.provider && x.providerUserId == p.providerId) hqa hqap
  have hq1uid : q1.userId = r1.user.id := hall q1 hq1mem hq1p
  obtain ⟨u2, hu2find, hu2mem, hu2p⟩ :=
    find?_exists_of_mem (fun x : User => x.id == q1.userId) hu'mem
      (by simp [hu'id, hq1uid])
  have hu2id : u2.id = q1.userId := by simpa using hu2p
  rw [handleOAuthCallback_linked hq1find, hu2find, finishOAuth_some]
  have hpreserve : ∀ x : OAuthProviderRow,
      ((if x.id == q1.id then
        { x with
          accessToken := some p.accessToken
          refreshToken := p.refreshToken
          tokenExpiresAt := p.expiresAt }
      else x).provider == p.provider &&
      (if x.id == q1.id then
        { x with
          accessToken := some p.accessToken
          refreshToken := p.refreshToken
          tokenExpiresAt := p.expiresAt }
      else x).providerUserId == p.providerId) =
      (x.provider == p.provider && x.providerUserId == p.providerId) := by
    intro x
    by_cases hid : (x.id == q1.id) = true <;> simp [hid]
  refine ⟨_, _, rfl, rfl, by simpa using hu2id.trans hq1uid, ?_, ?_, ?_⟩
  · simp [logAuditEvent]
  · simp [logAuditEvent]
  · refine ⟨{ q1 with
        accessToken := some p.accessToken
        refreshToken := p.refreshToken
        tokenExpiresAt := p.expiresAt }, ?_, hq1uid, rfl, rfl, rfl⟩
    show (st1.oauthProviders.map _).find? _ = _
    rw [find?_map_comm _ _ _ hpreserve, hq1find]
    simp

/-- `find?` returns the unique member satisfying the predicate. -/
theorem find?_eq_of_unique {α : Type} {pr : α → Bool} {l : List α} {a : α}
    (ha : a ∈ l) (hpa : pr a = true) (huniq : ∀ b ∈ l, pr b = true → b = a) :
    l.find? pr = some a := by
  cases hfind : l.find? pr with
  | none => exact absurd hpa (List.find?_eq_none.mp hfind a ha)
  | some b =>
    rw [huniq b (List.mem_of_find?_eq_some hfind) (List.find?_some hfind)]

/-- C10: `handleOAuthCallback` performs no account-status check on either
resolution path — an assertion resolving to an existing account through the
already-linked pair (branch 1) or through an email match (branch 3a)
succeeds, stores a fresh live refresh token and updates last-login even when
the account is suspended or deleted, whereas `login` rejects any non-active
account with `UnauthorizedError`. -/
theorem c10_oauth_ignores_status (cfg : Config) (st : Store) (p : OAuthProfile)
    (now : Nat) :
    (∀ (q : OAuthProviderRow) (u : User),
      st.oauthProviders.find?
        (fun x => x.provider == p.provider && x.providerUserId == p.providerId) = some q →
      st.users.find? (fun x => x.id == q.userId) = some u →
      u.status ≠ .active →
      ∃ st' r, handleOAuthCallback cfg st p now = .ok (st', r) ∧
        r.user.id = u.id ∧ r.isNewUser = false ∧
        (∃ row ∈ st'.refreshTokens, row.userId = u.id ∧ row.revokedAt = none ∧
          row.tokenHash = hashToken (.jwt r.refreshToken)) ∧
        (∃ u' ∈ st'.users, u'.id = u.id ∧ u'.lastLoginAt = some now)) ∧
    (∀ u : User,
      st.oauthProviders.find?
        (fun x => x.provider == p.provider && x.providerUserId == p.providerId) = none →
      st.users.find? (fun x => x.email == some p.email) = some u →
      u.status ≠ .active →
      ∃ st' r, handleOAuthCallback cfg st p now = .ok (st', r) ∧
        r.user.id = u.id ∧ r.isNewUser = false ∧
        (∃ row ∈ st'.refreshTokens, row.userId = u.id ∧ row.revokedAt = none ∧
          row.tokenHash = hashToken (.jwt r.refreshToken)) ∧
        (∃ u' ∈ st'.users, u'.id = u.id ∧ u'.lastLoginAt = some now)) ∧
    (∀ (data : LoginDto) (u2 : User) (ph : PwHash),
      st.users.find? (fun x => x.email == some data.email) = some u2 →
      u2.passwordHash = some ph → verifyPassword data.password ph = true →
      u2.status ≠ .active →
      login cfg st data now = .error (.unauthorizedError "Account is not active")) := by
  refine ⟨?_, ?_, ?_⟩
  · intro q u hq hu hstatus
    rw [handleOAuthCallback_linked hq, hu, finishOAuth_some]
    have humem := List.mem_of_find?_eq_some hu
    refine ⟨_, _, rfl, rfl, rfl, ?_, ?_⟩
    · exact ⟨_, List.mem_append_right _ (List.mem_singleton.mpr rfl), rfl, rfl, rfl⟩
    · refine ⟨_, List.mem_map_of_mem
        (fun x : User => if x.id == u.id then { x with lastLoginAt := some now } else x) humem,
        ?_, ?_⟩ <;> simp
  · intro u hq hu hstatus
    rw [handleOAuthCallback_emailMatch hq hu, finishOAuth_some]
    have humem := List.mem_of_find?_eq_some hu
    refine ⟨_, _, rfl, rfl, rfl, ?_, ?_⟩
    · exact ⟨_, List.mem_append_right _ (List.mem_singleton.mpr rfl), rfl, rfl, rfl⟩
    · refine ⟨_, List.mem_map_of_mem
        (fun x : User => if x.id == u.id then { x with lastLoginAt := some now } else x) humem,
        ?_, ?_⟩ <;> simp
  · intro data u2 ph hfind hph hpw hst
    simp only [login, hfind, hph]
    simp [hpw, bne_iff_ne, hst]

/-- Witness for C10: the suspended account is logged in through both the
already-linked pair (`stSuspW`) and a fresh email-matching assertion
(`stSusp2W`), while password login on the suspended account (`stSusp3W`) is
rejected. -/
theorem c10_oauth_ignores_status_witness :
    (∃ st' r, handleOAuthCallback cfgW stSuspW pSuspW 1000 = .ok (st', r) ∧
      r.user.id = userSuspW.id ∧ r.isNewUser = false ∧
      (∃ row ∈ st'.refreshTokens, row.userId = userSuspW.id ∧ row.revokedAt = none ∧
        row.tokenHash = hashToken (.jwt r.refreshToken)) ∧
      (∃ u' ∈ st'.users, u'.id = userSuspW.id ∧ u'.lastLoginAt = some 1000)) ∧
    (∃ st' r, handleOAuthCallback cfgW stSusp2W pSusp2W 1000 = .ok (st', r) ∧
      r.user.id = userSuspW.id ∧ r.isNewUser = false ∧
      (∃ row ∈ st'.refreshTokens, row.userId = userSuspW.id ∧ row.revokedAt = none ∧
        row.tokenHash = hashToken (.jwt r.refreshToken)) ∧
      (∃ u' ∈ st'.users, u'.id = userSuspW.id ∧ u'.lastLoginAt = some 1000)) ∧
    login cfgW stSusp3W ⟨"s@x.com", "Pw1!aaaa"⟩ 1000 =
      .error (.unauthorizedError "Account is not active") :=
  ⟨(c10_oauth_ignores_status cfgW stSuspW pSuspW 1000).1 qSuspW userSuspW
      (by rfl) (by rfl) (by decide),
   (c10_oauth_ignores_status cfgW stSusp2W pSusp2W 1000).2.1 userSuspW
      (by rfl) (by rfl) (by decide),
   (c10_oauth_ignores_status cfgW stSusp3W pSusp2W 1000).2.2
      ⟨"s@x.com", "Pw1!aaaa"⟩ userSuspPwW ⟨"Pw1!aaaa", 1⟩
      (by rfl) (by rfl) (by rfl) (by decide)⟩

/-- C3: cross-provider convergence — an assertion from an unseen provider
pair whose non-empty email matches the unique existing account attaches to
that account (`isNewAccount=false`, a new LinkedIdentity bound to it, no new
account); only when no account carries that email is a new account created,
with pre-verified email, no password hash and active status. -/
theorem c3_cross_provider_convergence (cfg : Config) (st : Store) (p : OAuthProfile)
    (now : Nat)
    (hq : st.oauthProviders.find?
      (fun x => x.provider == p.provider && x.providerUserId == p.providerId) = none)
    (hne : p.email ≠ "") :
    (∀ A ∈ st.users, A.email = some p.email →
      (∀ B ∈ st.users, B.email = some p.email → B = A) →
      ∃ st' r, handleOAuthCallback cfg st p now = .ok (st', r) ∧
        r.isNewUser = false ∧ r.user.id = A.id ∧
        st'.users.length = st.users.length ∧
        ∃ row ∈ st'.oauthProviders, row.provider = p.provider ∧
          row.providerUserId = p.providerId ∧ row.userId = A.id) ∧
    ((∀ B ∈ st.users, B.email ≠ some p.email) →
      ∃ st' r, handleOAuthCallback cfg st p now = .ok (st', r) ∧
        r.isNewUser = true ∧
        st'.users.length = st.users.length + 1 ∧
        (∃ nu ∈ st'.users, nu.id = r.user.id ∧ nu.email = some p.email ∧
          nu.emailVerified = true ∧ nu.passwordHash = none ∧ nu.status = .active) ∧
        ∃ row ∈ st'.oauthProviders, row.provider = p.provider ∧
          row.providerUserId = p.providerId ∧ row.userId = r.user.id) := by
  constructor
  · intro A hA hAe huniq
    have hfindA : st.users.find? (fun x => x.email == some p.email) = some A := by
      refine find?_eq_of_unique hA (by simp [hAe]) ?_
      intro b hb hpb
      exact huniq b hb (by simpa using hpb)
    rw [handleOAuthCallback_emailMatch hq hfindA, finishOAuth_some]
    refine ⟨_, _, rfl, rfl, rfl, ?_, ?_⟩
    · show ((linkOAuth st A.id p).users.map _).length = _
      simp [linkOAuth, logAuditEvent]
    · exact ⟨_, List.mem_append_right _ (List.mem_singleton.mpr rfl), rfl, rfl, rfl⟩
  · intro hnone
    have hfindN : st.users.find? (fun x => x.email == some p.email) = none := by
      refine List.find?_eq_none.mpr ?_
      intro b hb
      simpa using hnone b hb
    rw [handleOAuthCallback_newUser hq hfindN, finishOAuth_some]
    refine ⟨_, _, rfl, rfl, ?_, ?_, ?_⟩
    · show (((st.users ++ [_]).map _)).length = _
      simp
    · refine ⟨_, List.mem_map_of_mem
        (fun x : User => if x.id == st.nextId then { x with lastLoginAt := some now } else x)
        (List.mem_append_right _ (List.mem_singleton.mpr rfl)), ?_⟩
      simp [projectUser]
    · exact ⟨_, List.mem_append_right _ (List.mem_singleton.mpr rfl), rfl, rfl, rfl⟩

/-- C7 counterexample: against a store holding an account whose email is the
empty string, an empty-email assertion with an unseen provider pair does not
create a new account — it attaches to that existing account
(`isNewUser = false`), refuting that branch 3b is taken regardless of the
store contents. -/
theorem c7_counterexample :
    stE.oauthProviders.find?
      (fun x => x.provider == pE.provider && x.providerUserId == pE.providerId) = none ∧
    handleOAuthCallback cfgW stE pE 1000 = .ok oauthOutE ∧
    oauthOutE.2.isNewUser = false ∧
    oauthOutE.1.users.length = 1 ∧
    oauthOutE.2.user.id = userE.id := ⟨rfl, rfl, rfl, rfl, rfl⟩

/-- C7 amended: an empty-email assertion with an unseen provider pair matches
accounts by plain email equality, so it creates a new account exactly when no
existing account stores the empty-string email; when such an account exists
(creatable by a prior empty-email assertion) it attaches to it instead. -/
theorem c7_empty_email_new_account (cfg : Config) (st : Store) (p : OAuthProfile)
    (now : Nat)
    (hq : st.oauthProviders.find?
      (fun x => x.provider == p.provider && x.providerUserId == p.providerId) = none)
    (hemail : p.email = "")
    (hnone : ∀ B ∈ st.users, B.email ≠ some "") :
    ∃ st' r, handleOAuthCallback cfg st p now = .ok (st', r) ∧
      r.isNewUser = true ∧ st'.users.length = st.users.length + 1 ∧
      ∃ nu ∈ st'.users, nu.id = r.user.id ∧ nu.email = some "" ∧
        nu.emailVerified = true ∧ nu.passwordHash = none ∧ nu.status = .active := by
  have hfindN : st.users.find? (fun x => x.email == some p.email) = none := by
    refine List.find?_eq_none.mpr ?_
    intro b hb
    rw [hemail]
    simpa using hnone b hb
  rw [handleOAuthCallback_newUser hq hfindN, finishOAuth_some]
  refine ⟨_, _, rfl, rfl, ?_, ?_⟩
  · show (((st.users ++ [_]).map _)).length = _
    simp
  · refine ⟨_, List.mem_map_of_mem
      (fun x : User => if x.id == st.nextId then { x with lastLoginAt := some now } else x)
      (List.mem_append_right _ (List.mem_singleton.mpr rfl)), ?_⟩
    simp [projectUser, hemail]

/-- Witness for the amended C7 on the empty store. -/
theorem c7_empty_email_new_account_witness :
    ∃ st' r, handleOAuthCallback cfgW emptyStore pE 1000 = .ok (st', r) ∧
      r.isNewUser = true ∧ st'.users.length = emptyStore.users.length + 1 ∧
      ∃ nu ∈ st'.users, nu.id = r.user.id ∧ nu.email = some "" ∧
        nu.emailVerified = true ∧ nu.passwordHash = none ∧ nu.status = .active :=
  c7_empty_email_new_account cfgW emptyStore pE 1000 (by rfl) (by rfl)
    (by intro B hB; cases hB)

/-- Witness for C3 at the concrete store `stW`. -/
theorem c3_cross_provider_convergence_witness :
    (∀ A ∈ stW.users, A.email = some pAW.email →
      (∀ B ∈ stW.users, B.email = some pAW.email → B = A) →
      ∃ st' r, handleOAuthCallback cfgW stW pAW 1000 = .ok (st', r) ∧
        r.isNewUser = false ∧ r.user.id = A.id ∧
        st'.users.length = stW.users.length ∧
        ∃ row ∈ st'.oauthProviders, row.provider = pAW.provider ∧
          row.providerUserId = pAW.providerId ∧ row.userId = A.id) ∧
    ((∀ B ∈ stW.users, B.email ≠ some pAW.email) →
      ∃ st' r, handleOAuthCallback cfgW stW pAW 1000 = .ok (st', r) ∧
        r.isNewUser = true ∧
        st'.users.length = stW.users.length + 1 ∧
        (∃ nu ∈ st'.users, nu.id = r.user.id ∧ nu.email = some pAW.email ∧
          nu.emailVerified = true ∧ nu.passwordHash = none ∧ nu.status = .active) ∧
        ∃ row ∈ st'.oauthProviders, row.provider = pAW.provider ∧
          row.providerUserId = pAW.providerId ∧ row.userId = r.user.id) :=
  c3_cross_provider_convergence cfgW stW pAW 1000 (by rfl) (by decide)

/-- Witness for C2: the same Google assertion submitted twice. -/
theorem c2_oauth_idempotent_witness :
    ∃ st2 r2, handleOAuthCallback cfgW oauthOutW.1 pGW 2000 = .ok (st2, r2) ∧
      r2.isNewUser = false ∧
      r2.user.id = oauthOutW.2.user.id ∧
      st2.users.length = oauthOutW.1.users.length ∧
      st2.oauthProviders.length = oauthOutW.1.oauthProviders.length ∧
      ∃ row, st2.oauthProviders.find?
          (fun x => x.provider == pGW.provider && x.providerUserId == pGW.providerId) = some row ∧
        row.userId = oauthOutW.2.user.id ∧ row.accessToken = some pGW.accessToken ∧
        row.refreshToken = pGW.refreshToken ∧ row.tokenExpiresAt = pGW.expiresAt :=
  c2_oauth_idempotent cfgW emptyStore pGW 1000 2000 oauthOutW.1 oauthOutW.2
    (by decide) (by rfl)

/-- Success shape of `verifyEmail`: the consumed token row and the exact
form of the updated verification-token table. -/
theorem verifyEmail_ok_shape {st : Store} {tok : String} {now : Nat}
    {st' : Store} {m : String}
    (h : verifyEmail st tok now = .ok (st', m)) :
    ∃ vt ∈ st.verificationTokens, vt.token = tok ∧
      vt.tokenType = .emailVerification ∧ now < vt.expiresAt ∧ vt.usedAt = none ∧
      st'.verificationTokens = st.verificationTokens.map
        (fun v => if v.id == vt.id then { v with usedAt := some now } else v) := by
  simp only [verifyEmail] at h
  split at h
  · exact absurd h (by simp)
  next vt hfind =>
    split at h
    · exact absurd h (by simp)
    next hused =>
      have hmem := List.mem_of_find?_eq_some hfind
      have hp := List.find?_some hfind
      simp only [Bool.and_eq_true, beq_iff_eq, decide_eq_true_eq] at hp
      have hvts : st'.verificationTokens = st.verificationTokens.map
          (fun v => if v.id == vt.id then { v with usedAt := some now } else v) := by
        split at h <;>
          (simp only [Except.ok.injEq, Prod.mk.injEq] at h
           rw [← h.1]
           try simp [logAuditEvent])
      exact ⟨vt, hmem, hp.1.1, hp.1.2, hp.2,
        Option.not_isSome_iff_eq_none.mp (by simpa using hused), hvts⟩

/-- When every row carrying the presented raw value is of the wrong type,
expired or already used, `verifyEmail` rejects with `ValidationError`. -/
theorem verifyEmail_error_of_unusable (st : Store) (tok : String) (now : Nat)
    (h : ∀ v ∈ st.verificationTokens, v.token = tok →
      v.tokenType ≠ .emailVerification ∨ v.expiresAt ≤ now ∨ v.usedAt.isSome) :
    verifyEmail st tok now =
      .error (.validationError "Invalid or expired verification token") := by
  unfold verifyEmail
  cases hfind : st.verificationTokens.find? (fun v =>
      v.token == tok && v.tokenType == OneTimeKind.emailVerification
        && decide (now < v.expiresAt)) with
  | none => simp [hfind]
  | some vt =>
    have hmem := List.mem_of_find?_eq_some hfind
    have hp := List.find?_some hfind
    simp only [Bool.and_eq_true, beq_iff_eq, decide_eq_true_eq] at hp
    rcases h vt hmem hp.1.1 with hbad | hbad | hbad
    · exact absurd hp.1.2 hbad
    · exact absurd hp.2 (by omega)
    · simp [hfind, hbad]

/-- When every row carrying the presented raw value is of the wrong type,
expired or already used, `resetPassword` rejects with `ValidationError`
(possibly the password-strength message). -/
theorem resetPassword_error_of_unusable (st : Store) (tok pw : String) (now salt : Nat)
    (h : ∀ v ∈ st.verificationTokens, v.token = tok →
      v.tokenType ≠ .passwordReset ∨ v.expiresAt ≤ now ∨ v.usedAt.isSome) :
    ∃ m, resetPassword st tok pw now salt = .error (.validationError m) := by
  by_cases hv : (validatePasswordStrength pw).1 = true
  · cases hfind : st.verificationTokens.find? (fun vt =>
        vt.token == tok && vt.tokenType == OneTimeKind.passwordReset
          && decide (now < vt.expiresAt)) with
    | none =>
      exact ⟨"Invalid or expired reset token", by simp [resetPassword, hv, hfind]⟩
    | some rt =>
      have hmem := List.mem_of_find?_eq_some hfind
      have hp := List.find?_some hfind
      simp only [Bool.and_eq_true, beq_iff_eq, decide_eq_true_eq] at hp
      rcases h rt hmem hp.1.1 with hbad | hbad | hbad
      · exact absurd hp.1.2 hbad
      · exact absurd hp.2 (by omega)
      · exact ⟨"Invalid or expired reset token",
          by simp [resetPassword, hv, hfind, hbad]⟩
  · exact ⟨String.intercalate ", " (validatePasswordStrength pw).2,
      by simp [resetPassword, hv]⟩

/-- Used rows survive an append to the verification-token table. -/
theorem used_preserved_of_append {st0 st' : Store} {l : List VerificationTokenRow}
    (heq : st'.verificationTokens = st0.verificationTokens ++ l) :
    ∀ v ∈ st0.verificationTokens, ∀ u : Nat, v.usedAt = some u →
      ∃ v' ∈ st'.verificationTokens, v'.id = v.id ∧ v'.usedAt = some u := by
  intro v hv u hu
  exact ⟨v, heq ▸ List.mem_append_left _ hv, rfl, hu⟩

/-- Used rows survive an unchanged verification-token table. -/
theorem used_preserved_of_eq {st0 st' : Store}
    (heq : st'.verificationTokens = st0.verificationTokens) :
    ∀ v ∈ st0.verificationTokens, ∀ u : Nat, v.usedAt = some u →
      ∃ v' ∈ st'.verificationTokens, v'.id = v.id ∧ v'.usedAt = some u := by
  intro v hv u hu
  exact ⟨v, heq ▸ hv, rfl, hu⟩

/-- Used rows survive marking a previously unused row as used (row ids are
unique, mirroring the primary key). -/
theorem used_preserved_of_markUsed {st0 st' : Store} {vt : VerificationTokenRow}
    {now : Nat}
    (hids : st0.verificationTokens.Pairwise (fun a b => a.id ≠ b.id))
    (hvt : vt ∈ st0.verificationTokens) (hvtu : vt.usedAt = none)
    (heq : st'.verificationTokens = st0.verificationTokens.map
      (fun v => if v.id == vt.id then { v with usedAt := some now } else v)) :
    ∀ v ∈ st0.verificationTokens, ∀ u : Nat, v.usedAt = some u →
      ∃ v' ∈ st'.verificationTokens, v'.id = v.id ∧ v'.usedAt = some u := by
  intro v hv u hu
  have hne : (v.id == vt.id) = false := by
    by_contra hbe
    have hbe' : (v.id == vt.id) = true := by simpa using hbe
    have hveq : v = vt :=
      mem_eq_of_pairwise_key (fun x => x.id) hids hv hvt (by simpa using hbe')
    rw [hveq, hvtu] at hu
    cases hu
  refine ⟨v, ?_, rfl, hu⟩
  rw [heq]
  have hmm := List.mem_map_of_mem
    (fun v => if v.id == vt.id then { v with usedAt := some now } else v) hv
  simpa [hne] using hmm

/-- `finishOAuth` leaves the verification-token table unchanged. -/
theorem finishOAuth_ok_vts {cfg : Config} {base : Store} {userOpt : Option User}
    {isNew : Bool} {now : Nat} {st' : Store} {r : OAuthResult}
    (h : finishOAuth cfg base userOpt isNew now = .ok (st', r)) :
    st'.verificationTokens = base.verificationTokens := by
  cases userOpt with
  | none => exact absurd h (by simp [finishOAuth])
  | some user =>
    rw [finishOAuth_some] at h
    simp only [Except.ok.injEq, Prod.mk.injEq] at h
    rw [← h.1]
    simp [logAuditEvent]

/-- `handleOAuthCallback` leaves the verification-token table unchanged. -/
theorem handleOAuthCallback_ok_vts {cfg : Config} {st : Store} {p : OAuthProfile}
    {now : Nat} {st' : Store} {r : OAuthResult}
    (h : handleOAuthCallback cfg st p now = .ok (st', r)) :
    st'.verificationTokens = st.verificationTokens := by
  cases hq : st.oauthProviders.find?
      (fun x => x.provider == p.provider && x.providerUserId == p.providerId) with
  | some q =>
    rw [handleOAuthCallback_linked hq] at h
    rw [finishOAuth_ok_vts h]
  | none =>
    cases hu : st.users.find? (fun x => x.email == some p.email) with
    | some uA =>
      rw [handleOAuthCallback_emailMatch hq hu] at h
      rw [finishOAuth_ok_vts h]
      simp [logAuditEvent, linkOAuth]
    | none =>
      rw [handleOAuthCallback_newUser hq hu] at h
      rw [finishOAuth_ok_vts h]
      simp [logAuditEvent, linkOAuth]

/-- A successful `handleOAuthCallback` stores a fresh live 30-day refresh
row holding the digest of the issued refresh token, owned by the returned
account. -/
theorem handleOAuthCallback_refresh_row {cfg : Config} {st : Store}
    {p : OAuthProfile} {now : Nat} {st' : Store} {r : OAuthResult}
    (h : handleOAuthCallback cfg st p now = .ok (st', r)) :
    ∃ row ∈ st'.refreshTokens, row.tokenHash = hashToken (.jwt r.refreshToken) ∧
      row.userId = r.user.id ∧ row.revokedAt = none ∧
      row.expiresAt = now + refreshRowTtlMs := by
  have core : ∀ (base : Store) (userOpt : Option User) (isNew : Bool),
      finishOAuth cfg base userOpt isNew now = .ok (st', r) →
      ∃ row ∈ st'.refreshTokens, row.tokenHash = hashToken (.jwt r.refreshToken) ∧
        row.userId = r.user.id ∧ row.revokedAt = none ∧
        row.expiresAt = now + refreshRowTtlMs := by
    intro base userOpt isNew hfin
    cases userOpt with
    | none => exact absurd hfin (by simp [finishOAuth])
    | some user =>
      rw [finishOAuth_some] at hfin
      simp only [Except.ok.injEq, Prod.mk.injEq] at hfin
      obtain ⟨h1, h2⟩ := hfin
      subst h1
      subst h2
      exact ⟨_, List.mem_append_right _ (List.mem_singleton.mpr rfl), rfl, rfl, rfl, rfl⟩
  cases hq : st.oauthProviders.find?
      (fun x => x.provider == p.provider && x.providerUserId == p.providerId) with
  | some q =>
    rw [handleOAuthCallback_linked hq] at h
    exact core _ _ _ h
  | none =>
    cases hu : st.users.find? (fun x => x.email == some p.email) with
    | some uA =>
      rw [handleOAuthCallback_emailMatch hq hu] at h
      exact core _ _ _ h
    | none =>
      rw [handleOAuthCallback_newUser hq hu] at h
      exact core _ _ _ h

/-- The verification-token table after `requestPasswordReset` is an extension
of the previous one. -/
theorem requestPasswordReset_vts (st : Store) (email : String) (now : Nat)
    (fresh : String) :
    ∃ l, (requestPasswordReset st email now fresh).1.verificationTokens =
      st.verificationTokens ++ l := by
  cases hfind : st.users.find? (fun u => u.email == some email) with
  | none => exact ⟨[], by simp [requestPasswordReset, hfind]⟩
  | some u =>
    refine ⟨[⟨st.nextId, u.id, fresh, .passwordReset, now + resetTtlMs, none⟩], ?_⟩
    simp [requestPasswordReset, hfind, logAuditEvent]

/-- C5: one-time tokens are single-use and consumption is monotonic — no
lifecycle operation ever resets a non-null usedAt; a row that is used or
expired can never authorize `verifyEmail` or `resetPassword`; and after a
successful `VerifyEmail` a second call with the same raw token fails with
`ValidationError` (so the emailVerified flag is never double-applied).
Hypotheses mirror the primary key and the unique constraint on the token
column. -/
theorem c5_one_time_single_use (cfg : Config) (st : Store) (now : Nat)
    (hids : st.verificationTokens.Pairwise (fun a b => a.id ≠ b.id))
    (htoks : st.verificationTokens.Pairwise (fun a b => a.token ≠ b.token)) :
    (∀ (o : Op) (st' : Store), step cfg st now o = .ok st' →
      ∀ v ∈ st.verificationTokens, ∀ u : Nat, v.usedAt = some u →
        ∃ v' ∈ st'.verificationTokens, v'.id = v.id ∧ v'.usedAt = some u) ∧
    (∀ v ∈ st.verificationTokens, ∀ now2 : Nat,
      (v.usedAt.isSome ∨ v.expiresAt ≤ now2) →
      verifyEmail st v.token now2 =
        .error (.validationError "Invalid or expired verification token") ∧
      ∀ (pw : String) (salt : Nat), ∃ m,
        resetPassword st v.token pw now2 salt = .error (.validationError m)) ∧
    (∀ (tok : String) (st1 : Store) (m1 : String),
      verifyEmail st tok now = .ok (st1, m1) →
      ∀ now2 : Nat, verifyEmail st1 tok now2 =
        .error (.validationError "Invalid or expired verification token")) := by
  refine ⟨?_, ?_, ?_⟩
  · intro o st' hstep
    cases o with
    | opRegister d salt fresh =>
      obtain ⟨b, hb⟩ := map_fst_ok hstep
      obtain ⟨-, -, -, hvts, -, -⟩ := register_ok_shape hb
      exact used_preserved_of_append hvts
    | opLogin d =>
      obtain ⟨b, hb⟩ := map_fst_ok hstep
      obtain ⟨user, ph, -, -, -, -, -, -, -, -, hvts, -⟩ := login_ok_shape hb
      exact used_preserved_of_eq hvts
    | opRefresh raw =>
      obtain ⟨b, hb⟩ := map_fst_ok hstep
      obtain ⟨token, user, -, -, -, -, -, -, hvts, -⟩ := refreshAccessToken_ok_shape hb
      exact used_preserved_of_eq hvts
    | opLogout raw uid =>
      simp only [step, Except.ok.injEq] at hstep
      refine used_preserved_of_eq ?_
      rw [← hstep]
      simp [logout, logAuditEvent]
    | opVerifyEmail tok =>
      obtain ⟨b, hb⟩ := map_fst_ok hstep
      obtain ⟨vt, hvtmem, -, -, -, hvtu, hvts⟩ := verifyEmail_ok_shape hb
      exact used_preserved_of_markUsed hids hvtmem hvtu hvts
    | opRequestPasswordReset email fresh =>
      simp only [step, Except.ok.injEq] at hstep
      obtain ⟨l, hl⟩ := requestPasswordReset_vts st email now fresh
      refine used_preserved_of_append (l := l) ?_
      rw [← hstep]
      exact hl
    | opResetPassword tok pw salt =>
      obtain ⟨b, hb⟩ := map_fst_ok hstep
      obtain ⟨rt, hrtmem, -, -, -, hrtu, hvts, -⟩ := resetPassword_ok_shape hb
      exact used_preserved_of_markUsed hids hrtmem hrtu hvts
    | opOAuthCallback p =>
      obtain ⟨b, hb⟩ := map_fst_ok hstep
      exact used_preserved_of_eq (handleOAuthCallback_ok_vts hb)
    | opRemoveOAuthProvider pr pid =>
      simp only [step, Except.ok.injEq] at hstep
      refine used_preserved_of_eq ?_
      rw [← hstep]
      cases hfind : st.oauthProviders.find?
          (fun q => q.provider == pr && q.providerUserId == pid) with
      | none => simp [removeOAuthProvider, hfind]
      | some q => simp [removeOAuthProvider, hfind, logAuditEvent]
  · intro v hv now2 hbad
    have hkey : ∀ w ∈ st.verificationTokens, w.token = v.token → w = v := by
      intro w hw hwtok
      exact mem_eq_of_pairwise_key (fun x => x.token) htoks hw hv hwtok
    constructor
    · refine verifyEmail_error_of_unusable st v.token now2 ?_
      intro w hw hwtok
      rw [hkey w hw hwtok]
      rcases hbad with hbad | hbad
      · exact Or.inr (Or.inr hbad)
      · exact Or.inr (Or.inl hbad)
    · intro pw salt
      refine resetPassword_error_of_unusable st v.token pw now2 salt ?_
      intro w hw hwtok
      rw [hkey w hw hwtok]
      rcases hbad with hbad | hbad
      · exact Or.inr (Or.inr hbad)
      · exact Or.inr (Or.inl hbad)
  · intro tok st1 m1 hok now2
    obtain ⟨vt, hvtmem, hvttok, -, -, -, hvts⟩ := verifyEmail_ok_shape hok
    refine verifyEmail_error_of_unusable st1 tok now2 ?_
    intro w hw hwtok
    rw [hvts] at hw
    obtain ⟨w0, hw0, hw0eq⟩ := List.mem_map.mp hw
    subst hw0eq
    have hw0tok : w0.token = tok := by
      by_cases hid : (w0.id == vt.id) = true
      · simpa [hid] using hwtok
      · simpa [hid] using hwtok
    have hw0vt : w0 = vt :=
      mem_eq_of_pairwise_key (fun x => x.token) htoks hw0 hvtmem
        (hw0tok.trans hvttok.symm)
    subst hw0vt
    refine Or.inr (Or.inr ?_)
    simp

/-- Witness for C5 at the concrete store `stResetW`. -/
theorem c5_one_time_single_use_witness :
    (∀ (o : Op) (st' : Store), step cfgW stResetW 1000 o = .ok st' →
      ∀ v ∈ stResetW.verificationTokens, ∀ u : Nat, v.usedAt = some u →
        ∃ v' ∈ st'.verificationTokens, v'.id = v.id ∧ v'.usedAt = some u) ∧
    (∀ v ∈ stResetW.verificationTokens, ∀ now2 : Nat,
      (v.usedAt.isSome ∨ v.expiresAt ≤ now2) →
      verifyEmail stResetW v.token now2 =
        .error (.validationError "Invalid or expired verification token") ∧
      ∀ (pw : String) (salt : Nat), ∃ m,
        resetPassword stResetW v.token pw now2 salt = .error (.validationError m)) ∧
    (∀ (tok : String) (st1 : Store) (m1 : String),
      verifyEmail stResetW tok 1000 = .ok (st1, m1) →
      ∀ now2 : Nat, verifyEmail st1 tok now2 =
        .error (.validationError "Invalid or expired verification token")) :=
  c5_one_time_single_use cfgW stResetW 1000 (by decide) (by decide)

/-- C8 amended: refresh tokens are stored only as their `hashToken` digest —
every refresh row written by login, refresh or the OAuth callback holds the
digest of the issued raw token — while one-time verification and reset
tokens are stored as their raw opaque value (spec section 3), not as a
digest. -/
theorem c8_token_storage_forms (cfg : Config) (st : Store) (now salt : Nat) :
    (∀ (data : LoginDto) (st' : Store) (r : LoginResult),
      login cfg st data now = .ok (st', r) →
      ∃ row ∈ st'.refreshTokens, row.tokenHash = hashToken (.jwt r.refreshToken)) ∧
    (∀ (raw : RawToken) (st' : Store) (r : RefreshResult),
      refreshAccessToken cfg st raw now = .ok (st', r) →
      ∃ row ∈ st'.refreshTokens, row.tokenHash = hashToken (.jwt r.refreshToken)) ∧
    (∀ (p : OAuthProfile) (st' : Store) (r : OAuthResult),
      handleOAuthCallback cfg st p now = .ok (st', r) →
      ∃ row ∈ st'.refreshTokens, row.tokenHash = hashToken (.jwt r.refreshToken)) ∧
    (∀ (data : RegisterDto) (fresh : String) (st' : Store) (r : RegisterResult),
      register st data now salt fresh = .ok (st', r) →
      ∃ v ∈ st'.verificationTokens, v.token = fresh) ∧
    (∀ (email fresh : String),
      (st.users.find? (fun u => u.email == some email)).isSome →
      ∃ v ∈ (requestPasswordReset st email now fresh).1.verificationTokens,
        v.token = fresh) := by
  refine ⟨?_, ?_, ?_, ?_, ?_⟩
  · intro data st' r h
    obtain ⟨user, ph, -, -, -, -, -, -, hrt, -, -, -⟩ := login_ok_shape h
    rw [hrt]
    exact ⟨_, List.mem_append_right _ (List.mem_singleton.mpr rfl), rfl⟩
  · intro raw st' r h
    obtain ⟨token, user, -, -, -, -, -, hrt, -, -⟩ := refreshAccessToken_ok_shape h
    rw [hrt]
    exact ⟨_, List.mem_append_right _ (List.mem_singleton.mpr rfl), rfl⟩
  · intro p st' r h
    obtain ⟨row, hrow, hhash, -, -, -⟩ := handleOAuthCallback_refresh_row h
    exact ⟨row, hrow, hhash⟩
  · intro data fresh st' r h
    obtain ⟨-, -, -, hvts, -, -⟩ := register_ok_shape h
    rw [hvts]
    exact ⟨_, List.mem_append_right _ (List.mem_singleton.mpr rfl), rfl⟩
  · intro email fresh hsome
    obtain ⟨u, hu⟩ := Option.isSome_iff_exists.mp hsome
    simp only [requestPasswordReset, hu]
    exact ⟨_, List.mem_append_right _ (List.mem_singleton.mpr rfl), rfl⟩

/-- C9: login failures are indistinguishable across the three causes (email
unknown, no password hash, wrong password) — all return an
`UnauthorizedError` with the identical message — and `requestPasswordReset`
returns the same generic message whether or not the account exists. -/
theorem c9_indistinguishable_failures (cfg : Config) (st : Store) (now : Nat) :
    (∀ data : LoginDto,
      st.users.find? (fun x => x.email == some data.email) = none →
      login cfg st data now = .error (.unauthorizedError "Invalid email or password")) ∧
    (∀ (data : LoginDto) (u : User),
      st.users.find? (fun x => x.email == some data.email) = some u →
      u.passwordHash = none →
      login cfg st data now = .error (.unauthorizedError "Invalid email or password")) ∧
    (∀ (data : LoginDto) (u : User) (ph : PwHash),
      st.users.find? (fun x => x.email == some data.email) = some u →
      u.passwordHash = some ph → verifyPassword data.password ph = false →
      login cfg st data now = .error (.unauthorizedError "Invalid email or password")) ∧
    (∀ (email fresh : String),
      (requestPasswordReset st email now fresh).2 =
        "If the email exists, a password reset link has been sent") := by
  refine ⟨?_, ?_, ?_, ?_⟩
  · intro data hfind
    simp [login, hfind]
  · intro data u hfind hph
    simp [login, hfind, hph]
  · intro data u ph hfind hph hpw
    simp [login, hfind, hph, hpw]
  · intro email fresh
    cases hfind : st.users.find? (fun x => x.email == some email) with
    | none => simp [requestPasswordReset, hfind]
    | some u => simp [requestPasswordReset, hfind]

/-- Witness for the amended C6: `rawW` refreshes against `stW` because its
stored record passes all checks. -/
theorem c6_refresh_record_governed_witness :
    ∃ out, refreshAccessToken cfgW stW rawW 1000 = .ok out :=
  (c6_refresh_record_governed cfgW stW rawW 1000).mpr
    ⟨rowW, by rfl, by rfl, userW, by rfl, by rfl⟩

/-- Witness for the amended C8: the refresh row written by a concrete login
holds the digest of the issued raw refresh token. -/
theorem c8_token_storage_forms_witness :
    ∃ row ∈ loginOutW.1.refreshTokens,
      row.tokenHash = hashToken (.jwt loginOutW.2.refreshToken) :=
  (c8_token_storage_forms cfgW stPwW 1000 7).1 loginDtoW loginOutW.1 loginOutW.2 (by rfl)

/-- Witness for C9: a login with an unknown email on the empty store fails
with the uniform message, and the reset request returns the generic one. -/
theorem c9_indistinguishable_failures_witness :
    login cfgW emptyStore loginDtoW 1000 =
      .error (.unauthorizedError "Invalid email or password") ∧
    (requestPasswordReset emptyStore "a@x.com" 1000 "tok").2 =
      "If the email exists, a password reset link has been sent" :=
  ⟨(c9_indistinguishable_failures cfgW emptyStore 1000).1 loginDtoW (by rfl),
   (c9_indistinguishable_failures cfgW emptyStore 1000).2.2.2 "a@x.com" "tok"⟩

/-- Witness for C1 at the concrete store `stW`. -/
theorem c1_refresh_rotation_witness :
    hashToken (.jwt refreshOutW.2.refreshToken) ≠ hashToken rawW ∧
    (∃ old ∈ stW.refreshTokens, old.tokenHash = hashToken rawW ∧ old.revokedAt = none ∧
      ∃ old' ∈ refreshOutW.1.refreshTokens, old'.id = old.id ∧ old'.revokedAt = some 1000) ∧
    (∃ nw ∈ refreshOutW.1.refreshTokens,
      nw.tokenHash = hashToken (.jwt refreshOutW.2.refreshToken) ∧
      nw.expiresAt = 1000 + refreshRowTtlMs ∧ nw.revokedAt = none) ∧
    (∀ now2 : Nat, refreshAccessToken cfgW refreshOutW.1 rawW now2 =
      .error (.unauthorizedError "Invalid or expired refresh token")) :=
  c1_refresh_rotation cfgW stW rawW 1000 refreshOutW.1 refreshOutW.2
    (by decide) (by rfl) (by decide)

end AuthSystem
